import Mathlib

/-!
The hermes2d tutorial 24-newton-timedep-gp-adapt: the adaptive time-stepping driver

Shallow embedding of `main` of
`hermes2d/tutorial/24-newton-timedep-gp-adapt/main.cpp`.

* The hermes2d library routines called by `main` (mesh, space, projection,
  Newton solver, error estimator, hp-adaptation) are not part of the embedded
  file; they are taken as the parameter `Lib`, one field per routine.  Objects
  mutated through pointers in the C++ code are threaded through as values.
* The constants under "The following parameters can be changed" are collected
  in `Params`; `source_params` holds the values written in the file.
* `double` values are represented by rationals.  The only operations `main`
  performs on them are the product `* 100.` and the comparison `<`; rounding of
  the product and the value NaN (for which `<` is false) are not represented.
* Library objects are values: a solution keeps the value it was given when it
  was bound, whatever happens later to the mesh it was computed on.
* `int` loop counters `ts`, `as` are natural numbers (they start at 1 and are
  only incremented).
* `State.trace` and `State.live` are ghost fields: the chronological list of
  library calls performed, and the reference meshes/spaces created by
  `new Mesh()` / `space->dup` and not yet released by `free()`.
-/

namespace GPAdapt

/-! ## Constants of the source -/

/-- Number of initial uniform refinements. -/
def INIT_REF_NUM : Int := 2
/-- Initial polynomial degree. -/
def P_INIT : Int := 2
/-- Time discretisation: 1 for implicit Euler, 2 for Crank-Nicolson. -/
def TIME_DISCR : Int := 2
/-- Time interval length. -/
def T_FINAL : ℚ := 200
/-- Time step. -/
def TAU : ℚ := 5 / 1000
/-- Every UNREF_FREQ time step the mesh is unrefined. -/
def UNREF_FREQ : Int := 1
/-- Quantitative parameter of adapt. -/
def THRESHOLD : ℚ := 3 / 10
/-- Adaptive strategy. -/
def STRATEGY : Int := 1
/-- Maximum allowed level of hanging nodes. -/
def MESH_REGULARITY : Int := -1
/-- Stopping criterion for hp-adaptivity (relative error in percent). -/
def ERR_STOP : ℚ := 5
/-- Adaptivity process stops when the number of degrees of freedom grows over this limit. -/
def NDOF_STOP : Int := 60000
/-- Stopping criterion for Newton on coarse mesh. -/
def NEWTON_TOL_COARSE : ℚ := 1 / 100
/-- Stopping criterion for Newton on fine mesh. -/
def NEWTON_TOL_FINE : ℚ := 5 / 100
/-- Maximum allowed number of Newton iterations. -/
def NEWTON_MAX_ITER : Int := 50
/-- The value of `(int)(T_FINAL/TAU + 0.5)`. -/
def num_time_steps : Nat := 40000

/-- The changeable parameters of the example. -/
structure Params where
  INIT_REF_NUM : Int
  P_INIT : Int
  TIME_DISCR : Int
  UNREF_FREQ : Int
  THRESHOLD : ℚ
  STRATEGY : Int
  MESH_REGULARITY : Int
  ERR_STOP : ℚ
  NDOF_STOP : Int
  NEWTON_TOL_COARSE : ℚ
  NEWTON_TOL_FINE : ℚ
  NEWTON_MAX_ITER : Int

/-- The parameter values written in the source file. -/
def source_params : Params where
  INIT_REF_NUM := INIT_REF_NUM
  P_INIT := P_INIT
  TIME_DISCR := TIME_DISCR
  UNREF_FREQ := UNREF_FREQ
  THRESHOLD := THRESHOLD
  STRATEGY := STRATEGY
  MESH_REGULARITY := MESH_REGULARITY
  ERR_STOP := ERR_STOP
  NDOF_STOP := NDOF_STOP
  NEWTON_TOL_COARSE := NEWTON_TOL_COARSE
  NEWTON_TOL_FINE := NEWTON_TOL_FINE
  NEWTON_MAX_ITER := NEWTON_MAX_ITER

/-! ## The library routines called by `main` -/

/-- The hermes2d routines used by `main`, over meshes `M`, spaces `S`,
coefficient vectors `V` and solutions `U`.  A routine receiving a space pointer
may read the mesh the space points to, so it receives both values. -/
structure Lib (M S V U : Type) where
  /-- The mesh read by `mloader.load("square.mesh", &basemesh)`. -/
  load : M
  /-- The method `Mesh::refine_all_elements`. -/
  refine_all_elements : M → M
  /-- The constructor `new H1Space(&mesh, bc_types, essential_bc_values, P_INIT)`. -/
  H1Space : M → Int → S
  /-- The function `get_num_dofs(space)`. -/
  get_num_dofs : M → S → Int
  /-- The constructor `Solution(&mesh, init_cond)`. -/
  Solution_init : M → U
  /-- The default constructor `Solution()`. -/
  Solution_empty : U
  /-- The constructor `new AVector(ndof, is_complex)`. -/
  AVector : Int → V
  /-- The call `project_global(space, HERMES_H1_NORM, source, Tuple<Solution*>(), coeff_vec, ...)`:
  the new content of `coeff_vec`, from the space, the source solution and the old content. -/
  project_global : M → S → U → V → V
  /-- The call `project_global(space, HERMES_H1_NORM, source, &sln, NULL, ...)`. -/
  project_global_sln : M → S → U → U
  /-- The call `solve_newton(space, &wf, coeff_vec, matrix_solver, tol, max_iter, ...)`:
  the weak form is fixed by `TIME_DISCR` and reads `sln_prev_time`; the result is
  the new content of `coeff_vec` and the convergence flag. -/
  solve_newton : M → S → Int → U → V → ℚ → Int → V × Bool
  /-- The method `Solution::set_coeff_vector(space, coeff_vec)`. -/
  set_coeff_vector : M → S → V → U
  /-- The method `space->set_uniform_order(P_INIT)`. -/
  set_uniform_order : M → S → Int → S
  /-- The method `space->dup(ref_mesh)`. -/
  dup : M → S → M → S
  /-- The method `ref_space->copy_orders(space, order_increase)`. -/
  copy_orders : M → S → M → S → Int → S
  /-- The method `hp.calc_elem_errors(...)` of `Adapt hp(space, ...)` after
  `hp.set_solutions(&sln, &ref_sln)`. -/
  calc_elem_errors : M → S → U → U → ℚ
  /-- The method `hp.adapt(&selector, THRESHOLD, STRATEGY, MESH_REGULARITY)`: the
  refined coarse mesh and space, and the returned flag. -/
  adapt : M → S → U → U → ℚ → Int → Int → M × S × Bool

/-! ## Program state -/

/-- Library calls recorded in the ghost trace. -/
inductive Event where
  /-- Line 113 and line 173: `mesh.copy(&basemesh)`. -/
  | mesh_copy_base
  /-- Line 174: `space->set_uniform_order(P_INIT)`. -/
  | set_uniform_order (order : Int)
  /-- Line 141 (`from_ref = false`) and line 178 (`from_ref = true`):
  `project_global(space, ..., coeff_vec, ...)`. -/
  | project_coarse_vec (from_ref : Bool)
  /-- Lines 158, 188 (`on_ref = false`) and 227 (`on_ref = true`): `solve_newton`. -/
  | solve_newton (on_ref : Bool) (tol : ℚ) (converged : Bool)
  /-- Lines 164 and 193: `sln.set_coeff_vector(space, coeff_vec)`. -/
  | set_sln
  /-- Line 200: `info("Time step %d, adaptivity step %d:", ts, as)`. -/
  | info_step (ts as : Nat)
  /-- Lines 204-210: creation of `ref_mesh` and `ref_space`. -/
  | new_ref (ts as : Nat)
  /-- Lines 216 (`from_coarse = true`) and 221: `project_global(ref_space, ...)`. -/
  | project_ref_vec (from_coarse : Bool)
  /-- Line 232: `ref_sln.set_coeff_vector(ref_space, coeff_vec)`. -/
  | set_ref_sln
  /-- Line 239: `hp.calc_elem_errors(...) * 100.`, with the resulting percentage. -/
  | calc_elem_errors (err_est_rel_total : ℚ)
  /-- Line 249: `hp.adapt(...)`, with the returned flag and the DOF count after it. -/
  | adapt (done : Bool) (ndof : Int)
  /-- Line 258: `project_global(space, ..., &ref_sln, &sln, NULL, ...)`. -/
  | project_coarse_sln
  /-- Lines 262-263: `ref_space->free(); ref_mesh->free()`. -/
  | free_ref (ts as : Nat)
  /-- Line 279: `sln_prev_time.copy(&ref_sln)`. -/
  | copy_prev_time
  /-- The call `error(msg)`. -/
  | error (msg : String)
  deriving DecidableEq, Repr

/-- The variables of `main`, with the ghost fields `live` and `trace`. -/
structure State (M S V U : Type) where
  basemesh : M
  mesh : M
  space : S
  coeff_vec : V
  sln_prev_time : U
  sln : U
  ref_sln : U
  ts : Nat
  as : Nat
  done : Bool
  live : List (Nat × Nat)
  trace : List Event

/-- How a loop body is left. -/
inductive Flow where
  /-- The body ran to its end. -/
  | next
  /-- The body executed `break`. -/
  | brk
  /-- The body called `error(msg)`, which ends the program. -/
  | abort (msg : String)
  deriving DecidableEq, Repr

/-- Result of running a part of the program. -/
inductive Result (σ : Type) where
  /-- Normal completion. -/
  | finished (s : σ)
  /-- The program was ended by `error(msg)`. -/
  | aborted (s : σ) (msg : String)
  /-- The adaptivity loop did not exit within the given number of iterations. -/
  | out_of_fuel (s : σ)

variable {M S V U : Type}

/-- The state carried by a result. -/
def Result.state : Result (State M S V U) → State M S V U
  | .finished s => s
  | .aborted s _ => s
  | .out_of_fuel s => s

/-- Append an event to the ghost trace. -/
def State.log (s : State M S V U) (e : Event) : State M S V U :=
  { s with trace := s.trace ++ [e] }

/-- The text passed to `error` at lines 160, 190 and 229. -/
def newton_msg : String := "Newton's method did not converge."

/-! ## Initialisation (lines 106-164) -/

/-- Lines 106-164 of `main`: load and refine the base mesh, copy it to the coarse
mesh, create the space, project the initial condition and run Newton on the
coarse mesh with `NEWTON_TOL_COARSE`.  (The views of lines 144-153 only display.) -/
def init (p : Params) (lib : Lib M S V U) : Flow × State M S V U :=
  let basemesh := (lib.refine_all_elements)^[p.INIT_REF_NUM.toNat] lib.load
  let mesh := basemesh
  let space := lib.H1Space mesh p.P_INIT
  let ndof := lib.get_num_dofs mesh space
  let sln_prev_time := lib.Solution_init mesh
  let coeff_vec := lib.project_global mesh space sln_prev_time (lib.AVector ndof)
  let r := lib.solve_newton mesh space p.TIME_DISCR sln_prev_time coeff_vec
    p.NEWTON_TOL_COARSE p.NEWTON_MAX_ITER
  let s : State M S V U :=
    { basemesh := basemesh, mesh := mesh, space := space, coeff_vec := r.1,
      sln_prev_time := sln_prev_time, sln := lib.Solution_empty,
      ref_sln := lib.Solution_empty, ts := 0, as := 0, done := false, live := [],
      trace := [Event.mesh_copy_base, Event.project_coarse_vec false,
        Event.solve_newton false p.NEWTON_TOL_COARSE r.2] }
  if r.2 = false then (Flow.abort newton_msg, s.log (Event.error newton_msg))
  else (Flow.next, { s.log Event.set_sln with sln := lib.set_coeff_vector mesh space r.1 })

/-! ## Periodic global derefinement (lines 170-194) -/

/-- The test `ts > 1 && ts % UNREF_FREQ == 0` of line 171 (`%` truncates). -/
def deref_cond (p : Params) (ts : Nat) : Bool :=
  decide (1 < ts) && decide (Int.tmod (ts : Int) p.UNREF_FREQ = 0)

/-- Lines 171-194: when the test holds, the coarse mesh becomes a copy of the base
mesh, the order is reset to `P_INIT`, the last reference solution is projected
on the derefined space, Newton is run with `NEWTON_TOL_COARSE` and the coarse
solution is rebound. -/
def derefine (p : Params) (lib : Lib M S V U) (s : State M S V U) : Flow × State M S V U :=
  if deref_cond p s.ts = true then
    let mesh := s.basemesh
    let space := lib.set_uniform_order mesh s.space p.P_INIT
    let coeff_vec := lib.project_global mesh space s.ref_sln s.coeff_vec
    let r := lib.solve_newton mesh space p.TIME_DISCR s.sln_prev_time coeff_vec
      p.NEWTON_TOL_COARSE p.NEWTON_MAX_ITER
    let s1 : State M S V U :=
      { s with mesh := mesh, space := space, coeff_vec := r.1,
               trace := s.trace ++ [Event.mesh_copy_base, Event.set_uniform_order p.P_INIT,
                 Event.project_coarse_vec true,
                 Event.solve_newton false p.NEWTON_TOL_COARSE r.2] }
    if r.2 = false then (Flow.abort newton_msg, s1.log (Event.error newton_msg))
    else (Flow.next, { s1.log Event.set_sln with sln := lib.set_coeff_vector mesh space r.1 })
  else (Flow.next, s)

/-! ## The adaptivity loop (lines 196-267) -/

/-- Lines 205-207: the globally refined copy of the coarse mesh. -/
def ref_mesh (lib : Lib M S V U) (s : State M S V U) : M :=
  lib.refine_all_elements s.mesh

/-- Lines 208-210: the reference space, with orders increased by 1. -/
def ref_space (lib : Lib M S V U) (s : State M S V U) : S :=
  lib.copy_orders (ref_mesh lib s) (lib.dup s.mesh s.space (ref_mesh lib s)) s.mesh s.space 1

/-- Lines 213-222: the initial coefficient vector on the reference space, projected
from the coarse solution when `as == 1` and from the last reference solution
otherwise. -/
def ref_init_vec (lib : Lib M S V U) (s : State M S V U) : V :=
  if s.as = 1 then lib.project_global (ref_mesh lib s) (ref_space lib s) s.sln s.coeff_vec
  else lib.project_global (ref_mesh lib s) (ref_space lib s) s.ref_sln s.coeff_vec

/-- Lines 227-228: Newton on the reference space with `NEWTON_TOL_FINE`. -/
def ref_newton (p : Params) (lib : Lib M S V U) (s : State M S V U) : V × Bool :=
  lib.solve_newton (ref_mesh lib s) (ref_space lib s) p.TIME_DISCR s.sln_prev_time
    (ref_init_vec lib s) p.NEWTON_TOL_FINE p.NEWTON_MAX_ITER

/-- Line 232: the reference solution of the iteration. -/
def new_ref_sln (p : Params) (lib : Lib M S V U) (s : State M S V U) : U :=
  lib.set_coeff_vector (ref_mesh lib s) (ref_space lib s) (ref_newton p lib s).1

/-- Line 239: the estimated total relative error in percent. -/
def err_est_rel_total (p : Params) (lib : Lib M S V U) (s : State M S V U) : ℚ :=
  lib.calc_elem_errors s.mesh s.space s.sln (new_ref_sln p lib s) * 100

/-- Line 249: the result of `hp.adapt`. -/
def adapt_result (p : Params) (lib : Lib M S V U) (s : State M S V U) : M × S × Bool :=
  lib.adapt s.mesh s.space s.sln (new_ref_sln p lib s) p.THRESHOLD p.STRATEGY p.MESH_REGULARITY

/-- Line 251: `get_num_dofs(space)` after `hp.adapt`. -/
def ndof_after_adapt (p : Params) (lib : Lib M S V U) (s : State M S V U) : Int :=
  lib.get_num_dofs (adapt_result p lib s).1 (adapt_result p lib s).2.1

/-- Lines 261-265: free the reference space and mesh of this iteration, `as++`. -/
def free_ref (s : State M S V U) : State M S V U :=
  { s with live := s.live.erase (s.ts, s.as), as := s.as + 1,
           trace := s.trace ++ [Event.free_ref s.ts s.as] }

/-- Lines 200-265: one pass through the body of the `do ... while` loop. -/
def adapt_body (p : Params) (lib : Lib M S V U) (s : State M S V U) : Flow × State M S V U :=
  let s1 : State M S V U :=
    { s with live := s.live ++ [(s.ts, s.as)], coeff_vec := (ref_newton p lib s).1,
             trace := s.trace ++ [Event.info_step s.ts s.as, Event.new_ref s.ts s.as,
               Event.project_ref_vec (decide (s.as = 1)),
               Event.solve_newton true p.NEWTON_TOL_FINE (ref_newton p lib s).2] }
  if (ref_newton p lib s).2 = false then (Flow.abort newton_msg, s1.log (Event.error newton_msg))
  else
    let s2 : State M S V U :=
      { s1 with ref_sln := new_ref_sln p lib s,
                trace := s1.trace ++ [Event.set_ref_sln,
                  Event.calc_elem_errors (err_est_rel_total p lib s)] }
    if err_est_rel_total p lib s < p.ERR_STOP then
      (Flow.next, free_ref { s2 with done := true })
    else
      let s3 : State M S V U :=
        { s2 with mesh := (adapt_result p lib s).1, space := (adapt_result p lib s).2.1,
                  done := (adapt_result p lib s).2.2,
                  trace := s2.trace ++ [Event.adapt (adapt_result p lib s).2.2
                    (ndof_after_adapt p lib s)] }
      if p.NDOF_STOP ≤ ndof_after_adapt p lib s then (Flow.brk, { s3 with done := true })
      else
        (Flow.next, free_ref { s3.log Event.project_coarse_sln with
          sln := lib.project_global_sln s3.mesh s3.space s3.ref_sln })

/-- Lines 199-267: the `do ... while (done == false)` loop, run for at most `fuel`
iterations. -/
def adapt_loop (p : Params) (lib : Lib M S V U) : Nat → State M S V U → Result (State M S V U)
  | 0, s => Result.out_of_fuel s
  | fuel + 1, s =>
    match adapt_body p lib s with
    | (Flow.abort msg, s1) => Result.aborted s1 msg
    | (Flow.brk, s1) => Result.finished s1
    | (Flow.next, s1) =>
      if s1.done = false then adapt_loop p lib fuel s1 else Result.finished s1

/-! ## The time stepping loop (lines 166-280) -/

/-- Line 197: `bool done = false; int as = 1;`. -/
def loop_entry (s : State M S V U) : State M S V U :=
  { s with done := false, as := 1 }

/-- Lines 169-280: the body of the time stepping loop. -/
def time_step (p : Params) (lib : Lib M S V U) (fuel : Nat) (s : State M S V U) :
    Result (State M S V U) :=
  match derefine p lib s with
  | (Flow.abort msg, s1) => Result.aborted s1 msg
  | (_, s1) =>
    match adapt_loop p lib fuel (loop_entry s1) with
    | Result.finished s2 =>
      Result.finished ({ s2 with sln_prev_time := s2.ref_sln }.log Event.copy_prev_time)
    | r => r

/-- Line 168: `for(int ts = 1; ts <= num_time_steps; ts++)`, with the number of
remaining steps as the first argument. -/
def time_loop (p : Params) (lib : Lib M S V U) (fuel : Nat) :
    Nat → State M S V U → Result (State M S V U)
  | 0, s => Result.finished s
  | n + 1, s =>
    match time_step p lib fuel s with
    | Result.finished s1 => time_loop p lib fuel n { s1 with ts := s1.ts + 1 }
    | r => r

/-- The program with `n` time steps: initialisation, then the time stepping loop
from `ts = 1`. -/
def run (p : Params) (lib : Lib M S V U) (fuel n : Nat) : Result (State M S V U) :=
  match init p lib with
  | (Flow.abort msg, s) => Result.aborted s msg
  | (_, s) => time_loop p lib fuel n { s with ts := 1 }

/-- The function `main`, each adaptivity loop being given `fuel` iterations. -/
def main (p : Params) (lib : Lib M S V U) (fuel : Nat) : Result (State M S V U) :=
  run p lib fuel num_time_steps

/-! ## Notions used in the statements -/

/-- The event is the `info` line that opens an adaptivity iteration. -/
def Event.is_info_step : Event → Bool
  | Event.info_step _ _ => true
  | _ => false

/-- The event is a call of `hp.adapt`. -/
def Event.is_adapt : Event → Bool
  | Event.adapt _ _ => true
  | _ => false

/-- Number of adaptivity iterations started in a trace. -/
def iter_count (t : List Event) : Nat := t.countP Event.is_info_step

/-- The state at the start of iteration `k + 1` of an adaptivity loop entered in
state `s`, as long as the loop has not been left. -/
def iter_state (p : Params) (lib : Lib M S V U) (s : State M S V U) (k : Nat) : State M S V U :=
  (fun x => (adapt_body p lib x).2)^[k] s

/-- The three exit tests of an iteration whose Newton solve converged: error
below `ERR_STOP` (line 246), `hp.adapt` returning `true` (line 249), DOF count
after adaptation at least `NDOF_STOP` (line 251). -/
def stops (p : Params) (lib : Lib M S V U) (s : State M S V U) : Prop :=
  err_est_rel_total p lib s < p.ERR_STOP ∨ (adapt_result p lib s).2.2 = true ∨
    p.NDOF_STOP ≤ ndof_after_adapt p lib s

/-- A small library for concrete runs: a mesh is its refinement level, a space is
its DOF count with a flag telling a reference space, vectors and solutions are
counters.  The estimator always returns `err`, `hp.adapt` always returns
`adapt_done` and adds `dof_step` DOFs, and `newton_ok` tells from the flag of the
space and the previous-time solution whether Newton converges. -/
def test_lib (err : ℚ) (adapt_done : Bool) (dof_step : Int) (newton_ok : Bool → Nat → Bool) :
    Lib Nat (Int × Bool) Nat Nat where
  load := 0
  refine_all_elements := fun m => m + 1
  H1Space := fun m _ => (100 * (m : Int), false)
  get_num_dofs := fun _ s => s.1
  Solution_init := fun _ => 0
  Solution_empty := 0
  AVector := fun _ => 0
  project_global := fun _ _ u _ => u + 1
  project_global_sln := fun _ _ u => u + 1
  solve_newton := fun _ s _ u v _ _ => (v + 1, newton_ok s.2 u)
  set_coeff_vector := fun _ _ v => v + 1
  set_uniform_order := fun m _ _ => (100 * (m : Int), false)
  dup := fun _ s _ => (4 * s.1, true)
  copy_orders := fun _ s _ _ _ => s
  calc_elem_errors := fun _ _ _ _ => err
  adapt := fun m s _ _ _ _ _ => (m + 1, (s.1 + dof_step, false), adapt_done)

/-- A state at the entry of an adaptivity loop of time step 1 over `test_lib`. -/
def test_state : State Nat (Int × Bool) Nat Nat where
  basemesh := 2
  mesh := 2
  space := (200, false)
  coeff_vec := 2
  sln_prev_time := 0
  sln := 3
  ref_sln := 0
  ts := 1
  as := 1
  done := false
  live := []
  trace := []

/-! ## The loop body, case by case -/

theorem adapt_body_abort (p : Params) (lib : Lib M S V U) (s : State M S V U)
    (h : (ref_newton p lib s).2 = false) :
    (adapt_body p lib s).1 = Flow.abort newton_msg := by
  simp [adapt_body, h]

theorem adapt_body_below (p : Params) (lib : Lib M S V U) (s : State M S V U)
    (hn : (ref_newton p lib s).2 = true) (he : err_est_rel_total p lib s < p.ERR_STOP) :
    adapt_body p lib s = (Flow.next, free_ref
      { s with live := s.live ++ [(s.ts, s.as)], coeff_vec := (ref_newton p lib s).1,
               ref_sln := new_ref_sln p lib s, done := true,
               trace := s.trace ++ [Event.info_step s.ts s.as, Event.new_ref s.ts s.as,
                 Event.project_ref_vec (decide (s.as = 1)),
                 Event.solve_newton true p.NEWTON_TOL_FINE true, Event.set_ref_sln,
                 Event.calc_elem_errors (err_est_rel_total p lib s)] }) := by
  simp [adapt_body, hn, he]

theorem adapt_body_break (p : Params) (lib : Lib M S V U) (s : State M S V U)
    (hn : (ref_newton p lib s).2 = true) (he : ¬ err_est_rel_total p lib s < p.ERR_STOP)
    (hd : p.NDOF_STOP ≤ ndof_after_adapt p lib s) :
    adapt_body p lib s = (Flow.brk,
      { s with live := s.live ++ [(s.ts, s.as)], coeff_vec := (ref_newton p lib s).1,
               ref_sln := new_ref_sln p lib s, mesh := (adapt_result p lib s).1,
               space := (adapt_result p lib s).2.1, done := true,
               trace := s.trace ++ [Event.info_step s.ts s.as, Event.new_ref s.ts s.as,
                 Event.project_ref_vec (decide (s.as = 1)),
                 Event.solve_newton true p.NEWTON_TOL_FINE true, Event.set_ref_sln,
                 Event.calc_elem_errors (err_est_rel_total p lib s),
                 Event.adapt (adapt_result p lib s).2.2 (ndof_after_adapt p lib s)] }) := by
  simp [adapt_body, hn, he, hd]

theorem adapt_body_refine (p : Params) (lib : Lib M S V U) (s : State M S V U)
    (hn : (ref_newton p lib s).2 = true) (he : ¬ err_est_rel_total p lib s < p.ERR_STOP)
    (hd : ¬ p.NDOF_STOP ≤ ndof_after_adapt p lib s) :
    adapt_body p lib s = (Flow.next, free_ref
      { s with live := s.live ++ [(s.ts, s.as)], coeff_vec := (ref_newton p lib s).1,
               ref_sln := new_ref_sln p lib s, mesh := (adapt_result p lib s).1,
               space := (adapt_result p lib s).2.1, done := (adapt_result p lib s).2.2,
               sln := lib.project_global_sln (adapt_result p lib s).1
                 (adapt_result p lib s).2.1 (new_ref_sln p lib s),
               trace := s.trace ++ [Event.info_step s.ts s.as, Event.new_ref s.ts s.as,
                 Event.project_ref_vec (decide (s.as = 1)),
                 Event.solve_newton true p.NEWTON_TOL_FINE true, Event.set_ref_sln,
                 Event.calc_elem_errors (err_est_rel_total p lib s),
                 Event.adapt (adapt_result p lib s).2.2 (ndof_after_adapt p lib s),
                 Event.project_coarse_sln] }) := by
  simp [adapt_body, hn, he, hd, State.log]

theorem iter_count_append (t u : List Event) : iter_count (t ++ u) = iter_count t + iter_count u := by
  simp [iter_count, List.countP_append]

/-! ## C1: the stopping test on the error estimate -/

/-- C1: in every adaptivity iteration whose estimated relative error (in percent)
is strictly below `ERR_STOP`, the body sets `done = true`, leaves the coarse mesh
and space untouched, calls no `hp.adapt`, and the loop is left at that iteration;
consequently, when `ERR_STOP` exceeds every value the estimator can return, an
adaptivity loop runs exactly one iteration (it ends there with `done = true`, or
with the fatal Newton error of that single iteration). -/
theorem C1_error_below_threshold_stops (p : Params) (lib : Lib M S V U) :
    (∀ (s : State M S V U) (fuel : Nat),
      (ref_newton p lib s).2 = true → err_est_rel_total p lib s < p.ERR_STOP →
      ∃ s1 new, adapt_body p lib s = (Flow.next, s1) ∧ s1.done = true ∧
        adapt_loop p lib (fuel + 1) s = Result.finished s1 ∧
        s1.mesh = s.mesh ∧ s1.space = s.space ∧
        s1.trace = s.trace ++ new ∧ (∀ e ∈ new, e.is_adapt = false)) ∧
    ((∀ m sp u r, lib.calc_elem_errors m sp u r * 100 < p.ERR_STOP) →
      ∀ (s : State M S V U) (fuel : Nat),
        ((ref_newton p lib s).2 = true →
          ∃ s1, adapt_loop p lib (fuel + 1) s = Result.finished s1 ∧ s1.done = true ∧
            iter_count s1.trace = iter_count s.trace + 1) ∧
        ((ref_newton p lib s).2 = false →
          ∃ s1, adapt_loop p lib (fuel + 1) s = Result.aborted s1 newton_msg ∧
            iter_count s1.trace = iter_count s.trace + 1)) := by
  have key : ∀ (s : State M S V U) (fuel : Nat),
      (ref_newton p lib s).2 = true → err_est_rel_total p lib s < p.ERR_STOP →
      ∃ s1 new, adapt_body p lib s = (Flow.next, s1) ∧ s1.done = true ∧
        adapt_loop p lib (fuel + 1) s = Result.finished s1 ∧
        s1.mesh = s.mesh ∧ s1.space = s.space ∧
        s1.trace = s.trace ++ new ∧ (∀ e ∈ new, e.is_adapt = false) ∧
        iter_count new = 1 := by
    intro s fuel hn he
    refine ⟨_, [Event.info_step s.ts s.as, Event.new_ref s.ts s.as,
        Event.project_ref_vec (decide (s.as = 1)),
        Event.solve_newton true p.NEWTON_TOL_FINE true, Event.set_ref_sln,
        Event.calc_elem_errors (err_est_rel_total p lib s), Event.free_ref s.ts s.as],
      adapt_body_below p lib s hn he, ?_, ?_, ?_, ?_, ?_, ?_, ?_⟩
    · simp [free_ref]
    · simp [adapt_loop, adapt_body_below p lib s hn he, free_ref]
    · simp [free_ref]
    · simp [free_ref]
    · simp [free_ref]
    · intro e he
      simp at he
      rcases he with h | h | h | h | h | h | h <;> subst h <;> rfl
    · rfl
  refine ⟨?_, ?_⟩
  · intro s fuel hn he
    obtain ⟨s1, new, h1, h2, h3, h4, h5, h6, h7, _⟩ := key s fuel hn he
    exact ⟨s1, new, h1, h2, h3, h4, h5, h6, h7⟩
  · intro hall s fuel
    refine ⟨?_, ?_⟩
    · intro hn
      obtain ⟨s1, new, _, h2, h3, _, _, h6, _, h8⟩ := key s fuel hn (hall _ _ _ _)
      exact ⟨s1, h3, h2, by rw [h6, iter_count_append, h8]⟩
    · intro hn
      refine ⟨(adapt_body p lib s).2, ?_, ?_⟩
      · simp [adapt_loop, adapt_body, hn]
      · simp [adapt_body, hn, State.log, iter_count, List.countP_append, Event.is_info_step,
          List.countP_cons]

/-- The library of the C1 witness: the estimator returns 0, Newton converges. -/
def lib_small_error : Lib Nat (Int × Bool) Nat Nat :=
  test_lib 0 false 0 (fun _ _ => true)

theorem C1_error_below_threshold_stops_witness :
    (ref_newton source_params lib_small_error test_state).2 = true ∧
    err_est_rel_total source_params lib_small_error test_state < source_params.ERR_STOP ∧
    (∃ s1 new, adapt_body source_params lib_small_error test_state = (Flow.next, s1) ∧
        s1.done = true ∧
        adapt_loop source_params lib_small_error (2 + 1) test_state = Result.finished s1 ∧
        s1.mesh = test_state.mesh ∧ s1.space = test_state.space ∧
        s1.trace = test_state.trace ++ new ∧ (∀ e ∈ new, e.is_adapt = false)) ∧
    (∀ m sp u r, lib_small_error.calc_elem_errors m sp u r * 100 < source_params.ERR_STOP) ∧
    (∃ s1, adapt_loop source_params lib_small_error (2 + 1) test_state = Result.finished s1 ∧
        s1.done = true ∧ iter_count s1.trace = iter_count test_state.trace + 1) :=
  have h1 : (ref_newton source_params lib_small_error test_state).2 = true := by
    simp [ref_newton, lib_small_error, test_lib]
  have h2 : err_est_rel_total source_params lib_small_error test_state
      < source_params.ERR_STOP := by
    norm_num [err_est_rel_total, lib_small_error, test_lib, source_params, ERR_STOP]
  have h3 : ∀ m sp u r,
      lib_small_error.calc_elem_errors m sp u r * 100 < source_params.ERR_STOP := by
    intro m sp u r
    norm_num [lib_small_error, test_lib, source_params, ERR_STOP]
  ⟨h1, h2, (C1_error_below_threshold_stops source_params lib_small_error).1 test_state 2 h1 h2,
    h3, ((C1_error_below_threshold_stops source_params lib_small_error).2 h3 test_state 2).1 h1⟩

/-! ## The loop, iteration by iteration -/

theorem adapt_loop_of_stops (p : Params) (lib : Lib M S V U) (s : State M S V U) (fuel : Nat)
    (hn : (ref_newton p lib s).2 = true) (hs : stops p lib s) :
    adapt_loop p lib (fuel + 1) s = Result.finished (adapt_body p lib s).2 ∧
      (adapt_body p lib s).2.done = true := by
  by_cases he : err_est_rel_total p lib s < p.ERR_STOP
  · simp [adapt_loop, adapt_body_below p lib s hn he, free_ref]
  · by_cases hd : p.NDOF_STOP ≤ ndof_after_adapt p lib s
    · simp [adapt_loop, adapt_body_break p lib s hn he hd]
    · have ha : (adapt_result p lib s).2.2 = true := by
        rcases hs with h | h | h
        · exact absurd h he
        · exact h
        · exact absurd h hd
      simp [adapt_loop, adapt_body_refine p lib s hn he hd, free_ref, ha]

theorem adapt_loop_of_not_stops (p : Params) (lib : Lib M S V U) (s : State M S V U)
    (fuel : Nat) (hn : (ref_newton p lib s).2 = true) (hs : ¬ stops p lib s) :
    adapt_loop p lib (fuel + 1) s = adapt_loop p lib fuel (adapt_body p lib s).2 := by
  have he : ¬ err_est_rel_total p lib s < p.ERR_STOP := fun h => hs (Or.inl h)
  have hd : ¬ p.NDOF_STOP ≤ ndof_after_adapt p lib s := fun h => hs (Or.inr (Or.inr h))
  have ha : (adapt_result p lib s).2.2 = false := by
    cases h : (adapt_result p lib s).2.2
    · rfl
    · exact absurd (Or.inr (Or.inl h)) hs
  simp [adapt_loop, adapt_body_refine p lib s hn he hd, free_ref, ha]

theorem iter_state_succ (p : Params) (lib : Lib M S V U) (s : State M S V U) (k : Nat) :
    iter_state p lib s (k + 1) = iter_state p lib (adapt_body p lib s).2 k := by
  simp [iter_state, Function.iterate_succ_apply]

/-- With converging Newton solves, the loop is left at iteration `n + 1` (it
finishes with `n + 1` iterations and with no fewer) exactly when `n + 1` is the
first iteration at which one of the three exit tests holds. -/
theorem adapt_loop_first_stop (p : Params) (lib : Lib M S V U) (n : Nat) :
    ∀ (s : State M S V U),
      (∀ k, k ≤ n → (ref_newton p lib (iter_state p lib s k)).2 = true) →
      (((∃ s1, adapt_loop p lib (n + 1) s = Result.finished s1) ∧
          ∀ m, m ≤ n → ∃ s2, adapt_loop p lib m s = Result.out_of_fuel s2) ↔
        (stops p lib (iter_state p lib s n) ∧
          ∀ k, k < n → ¬ stops p lib (iter_state p lib s k))) := by
  induction n with
  | zero =>
    intro s hn
    have hn0 : (ref_newton p lib s).2 = true := hn 0 (Nat.le_refl 0)
    constructor
    · rintro ⟨⟨s1, h1⟩, _⟩
      refine ⟨?_, fun k hk => absurd hk (Nat.not_lt_zero k)⟩
      by_contra hs
      rw [adapt_loop_of_not_stops p lib s 0 hn0 hs] at h1
      simp [adapt_loop] at h1
    · rintro ⟨hs, _⟩
      refine ⟨⟨_, (adapt_loop_of_stops p lib s 0 hn0 hs).1⟩, ?_⟩
      intro m hm
      have : m = 0 := Nat.le_zero.mp hm
      subst this
      exact ⟨s, rfl⟩
  | succ n ih =>
    intro s hn
    have hn0 : (ref_newton p lib s).2 = true := hn 0 (Nat.zero_le _)
    have hn1 : ∀ k, k ≤ n →
        (ref_newton p lib (iter_state p lib (adapt_body p lib s).2 k)).2 = true := by
      intro k hk
      rw [← iter_state_succ]
      exact hn (k + 1) (Nat.succ_le_succ hk)
    by_cases hs : stops p lib s
    · constructor
      · rintro ⟨_, h2⟩
        obtain ⟨s2, h2⟩ := h2 1 (Nat.succ_le_succ (Nat.zero_le n))
        rw [(adapt_loop_of_stops p lib s 0 hn0 hs).1] at h2
        cases h2
      · rintro ⟨_, h2⟩
        exact absurd hs (h2 0 (Nat.succ_pos n))
    · rw [adapt_loop_of_not_stops p lib s (n + 1) hn0 hs, iter_state_succ]
      constructor
      · rintro ⟨h1, h2⟩
        have h3 := (ih _ hn1).mp ⟨h1, fun m hm => by
          have := h2 (m + 1) (Nat.succ_le_succ hm)
          rwa [adapt_loop_of_not_stops p lib s m hn0 hs] at this⟩
        refine ⟨h3.1, ?_⟩
        intro k hk
        cases k with
        | zero => exact hs
        | succ k =>
          rw [iter_state_succ]
          exact h3.2 k (Nat.lt_of_succ_lt_succ hk)
      · rintro ⟨h1, h2⟩
        have h3 := (ih _ hn1).mpr ⟨h1, fun k hk => by
          have := h2 (k + 1) (Nat.succ_lt_succ hk)
          rwa [iter_state_succ] at this⟩
        refine ⟨h3.1, ?_⟩
        intro m hm
        cases m with
        | zero => exact ⟨s, rfl⟩
        | succ m =>
          rw [adapt_loop_of_not_stops p lib s m hn0 hs]
          exact h3.2 m (Nat.le_of_succ_le_succ hm)

/-! ## C2: a DOF ceiling below the initial DOF count -/

/-- The source parameters with the DOF ceiling lowered to 50. -/
def low_ceiling_params : Params := { source_params with NDOF_STOP := 50 }

/-- The estimator returns 10 (1000 percent), `hp.adapt` refines (50 more DOFs, flag
`false`), Newton converges. -/
def lib_refining : Lib Nat (Int × Bool) Nat Nat :=
  test_lib 10 false 50 (fun _ _ => true)

/-- C2, as stated, fails: with ceiling 50 below the 200 initial DOFs and an error
above `ERR_STOP`, the loop does end in its first iteration with `done = true`, but
`hp.adapt` has been called and has changed the coarse mesh and space. -/
theorem C2_counterexample :
    low_ceiling_params.NDOF_STOP < lib_refining.get_num_dofs test_state.mesh test_state.space ∧
    ∃ s1, adapt_loop low_ceiling_params lib_refining 1 test_state = Result.finished s1 ∧
      s1.done = true ∧ s1.mesh ≠ test_state.mesh ∧ s1.space ≠ test_state.space ∧
      Event.adapt false 250 ∈ s1.trace := by
  refine ⟨by norm_num [low_ceiling_params, lib_refining, test_lib, test_state], ?_⟩
  have hn : (ref_newton low_ceiling_params lib_refining test_state).2 = true := by
    simp [ref_newton, lib_refining, test_lib]
  have he : ¬ err_est_rel_total low_ceiling_params lib_refining test_state
      < low_ceiling_params.ERR_STOP := by
    norm_num [err_est_rel_total, lib_refining, test_lib, low_ceiling_params, source_params,
      ERR_STOP]
  have hd : low_ceiling_params.NDOF_STOP
      ≤ ndof_after_adapt low_ceiling_params lib_refining test_state := by
    norm_num [ndof_after_adapt, adapt_result, lib_refining, test_lib, low_ceiling_params,
      test_state]
  refine ⟨_, by
    rw [adapt_loop, adapt_body_break low_ceiling_params lib_refining test_state hn he hd],
    rfl, ?_, ?_, ?_⟩
  · simp [adapt_result, lib_refining, test_lib, test_state]
  · simp [adapt_result, lib_refining, test_lib, test_state]
  · simp [adapt_result, ndof_after_adapt, lib_refining, test_lib, test_state]

/-- `hp.adapt` removes 160 DOFs (the estimator returns 1000 percent, Newton
converges). -/
def lib_coarsening : Lib Nat (Int × Bool) Nat Nat :=
  test_lib 10 false (-160) (fun _ _ => true)

/-- The ceiling is compared with the DOF count after `hp.adapt`: were `hp.adapt` to
bring the count from 200 down to 40, below the ceiling 50, the first iteration
would not leave the loop. -/
theorem ceiling_tested_after_adapt :
    low_ceiling_params.NDOF_STOP
      < lib_coarsening.get_num_dofs test_state.mesh test_state.space ∧
    ∃ s2, adapt_loop low_ceiling_params lib_coarsening 1 test_state = Result.out_of_fuel s2 := by
  refine ⟨by norm_num [low_ceiling_params, lib_coarsening, test_lib, test_state], ?_⟩
  have hn : (ref_newton low_ceiling_params lib_coarsening test_state).2 = true := by
    simp [ref_newton, lib_coarsening, test_lib]
  have hs : ¬ stops low_ceiling_params lib_coarsening test_state := by
    norm_num [stops, err_est_rel_total, ndof_after_adapt, adapt_result, lib_coarsening,
      test_lib, test_state, low_ceiling_params, source_params, ERR_STOP]
  rw [adapt_loop_of_not_stops low_ceiling_params lib_coarsening test_state 0 hn hs]
  exact ⟨_, rfl⟩

/-- C2 (amended): when `NDOF_STOP` is below the DOF count of the coarse space at
loop entry and `hp.adapt` never decreases the DOF count, then for every value of
the estimated error (the reference Newton solve having converged) the loop ends in
its first iteration with `done = true`; the coarse mesh and space are unchanged
when the error is below `ERR_STOP`, and otherwise exactly one `hp.adapt` has been
applied to them, the ceiling being tested after it. -/
theorem C2_ceiling_below_initial_dofs (p : Params) (lib : Lib M S V U) (s : State M S V U)
    (fuel : Nat)
    (hceil : p.NDOF_STOP < lib.get_num_dofs s.mesh s.space)
    (hmono : ∀ m sp u r t st mr, lib.get_num_dofs m sp ≤
      lib.get_num_dofs (lib.adapt m sp u r t st mr).1 (lib.adapt m sp u r t st mr).2.1)
    (hn : (ref_newton p lib s).2 = true) :
    ∃ s1 new, adapt_loop p lib (fuel + 1) s = Result.finished s1 ∧ s1.done = true ∧
      s1.trace = s.trace ++ new ∧ iter_count new = 1 ∧
      (err_est_rel_total p lib s < p.ERR_STOP →
        s1.mesh = s.mesh ∧ s1.space = s.space ∧ new.countP Event.is_adapt = 0) ∧
      (¬ err_est_rel_total p lib s < p.ERR_STOP →
        s1.mesh = (adapt_result p lib s).1 ∧ s1.space = (adapt_result p lib s).2.1 ∧
        new.countP Event.is_adapt = 1) := by
  by_cases he : err_est_rel_total p lib s < p.ERR_STOP
  · refine ⟨_, [Event.info_step s.ts s.as, Event.new_ref s.ts s.as,
        Event.project_ref_vec (decide (s.as = 1)),
        Event.solve_newton true p.NEWTON_TOL_FINE true, Event.set_ref_sln,
        Event.calc_elem_errors (err_est_rel_total p lib s), Event.free_ref s.ts s.as],
      (adapt_loop_of_stops p lib s fuel hn (Or.inl he)).1,
      (adapt_loop_of_stops p lib s fuel hn (Or.inl he)).2, ?_, rfl, ?_, ?_⟩
    · simp [adapt_body_below p lib s hn he, free_ref]
    · intro _
      simp [adapt_body_below p lib s hn he, free_ref, Event.is_adapt, List.countP_cons]
    · intro h
      exact absurd he h
  · have hd : p.NDOF_STOP ≤ ndof_after_adapt p lib s :=
      le_of_lt (lt_of_lt_of_le hceil (hmono _ _ _ _ _ _ _))
    refine ⟨_, [Event.info_step s.ts s.as, Event.new_ref s.ts s.as,
        Event.project_ref_vec (decide (s.as = 1)),
        Event.solve_newton true p.NEWTON_TOL_FINE true, Event.set_ref_sln,
        Event.calc_elem_errors (err_est_rel_total p lib s),
        Event.adapt (adapt_result p lib s).2.2 (ndof_after_adapt p lib s)],
      (adapt_loop_of_stops p lib s fuel hn (Or.inr (Or.inr hd))).1,
      (adapt_loop_of_stops p lib s fuel hn (Or.inr (Or.inr hd))).2, ?_, rfl, ?_, ?_⟩
    · simp [adapt_body_break p lib s hn he hd]
    · intro h
      exact absurd h he
    · intro _
      simp [adapt_body_break p lib s hn he hd, Event.is_adapt, List.countP_cons]

theorem C2_ceiling_below_initial_dofs_witness :
    low_ceiling_params.NDOF_STOP < lib_refining.get_num_dofs test_state.mesh test_state.space ∧
    (∀ m sp u r t st mr, lib_refining.get_num_dofs m sp ≤
      lib_refining.get_num_dofs (lib_refining.adapt m sp u r t st mr).1
        (lib_refining.adapt m sp u r t st mr).2.1) ∧
    (ref_newton low_ceiling_params lib_refining test_state).2 = true ∧
    ∃ s1 new, adapt_loop low_ceiling_params lib_refining (0 + 1) test_state
        = Result.finished s1 ∧ s1.done = true ∧
      s1.trace = test_state.trace ++ new ∧ iter_count new = 1 ∧
      (err_est_rel_total low_ceiling_params lib_refining test_state
          < low_ceiling_params.ERR_STOP →
        s1.mesh = test_state.mesh ∧ s1.space = test_state.space ∧
        new.countP Event.is_adapt = 0) ∧
      (¬ err_est_rel_total low_ceiling_params lib_refining test_state
          < low_ceiling_params.ERR_STOP →
        s1.mesh = (adapt_result low_ceiling_params lib_refining test_state).1 ∧
        s1.space = (adapt_result low_ceiling_params lib_refining test_state).2.1 ∧
        new.countP Event.is_adapt = 1) :=
  have h1 : low_ceiling_params.NDOF_STOP
      < lib_refining.get_num_dofs test_state.mesh test_state.space := by
    norm_num [low_ceiling_params, lib_refining, test_lib, test_state]
  have h2 : ∀ m sp u r t st mr, lib_refining.get_num_dofs m sp ≤
      lib_refining.get_num_dofs (lib_refining.adapt m sp u r t st mr).1
        (lib_refining.adapt m sp u r t st mr).2.1 := by
    intro m sp u r t st mr
    simp [lib_refining, test_lib]
  have h3 : (ref_newton low_ceiling_params lib_refining test_state).2 = true := by
    simp [ref_newton, lib_refining, test_lib]
  ⟨h1, h2, h3, C2_ceiling_below_initial_dofs low_ceiling_params lib_refining test_state 0 h1 h2 h3⟩

/-! ## C3: the iteration at which the loop stops -/

/-- The estimator returns 10 (1000 percent), `hp.adapt` adds no DOF and returns
`true` (no element qualifies), Newton converges. -/
def lib_saturated : Lib Nat (Int × Bool) Nat Nat :=
  test_lib 10 true 0 (fun _ _ => true)

/-- C3, as stated, fails: with the source parameters the loop stops at iteration 1
although the error (1000 percent) is not below 5 and the coarse DOF count after
the refinement call (200) has not reached 60000: `hp.adapt` returned `true`. -/
theorem C3_counterexample :
    (∃ s1, adapt_loop source_params lib_saturated 1 test_state = Result.finished s1) ∧
    ¬ (err_est_rel_total source_params lib_saturated test_state < 5 ∨
        (60000 : Int) ≤ ndof_after_adapt source_params lib_saturated test_state) := by
  have hn : (ref_newton source_params lib_saturated test_state).2 = true := by
    simp [ref_newton, lib_saturated, test_lib]
  have hs : stops source_params lib_saturated test_state :=
    Or.inr (Or.inl (by simp [adapt_result, lib_saturated, test_lib]))
  refine ⟨⟨_, (adapt_loop_of_stops source_params lib_saturated test_state 0 hn hs).1⟩, ?_⟩
  norm_num [err_est_rel_total, ndof_after_adapt, adapt_result, lib_saturated, test_lib,
    test_state]

/-- C3 (amended): with `ERR_STOP = 5.0`, `NDOF_STOP = 60000`, `THRESHOLD = 0.3` and
`STRATEGY = 1` (the source parameters), for every library behaviour and every
loop entry state whose first `n + 1` reference Newton solves converge, the loop
stops at iteration `n + 1` (it finishes within `n + 1` iterations and within no
fewer) exactly when `n + 1` is the first iteration at which the relative error is
below 5 percent, or `hp.adapt` returns `true`, or the coarse DOF count after that
iteration's refinement has reached 60000. -/
theorem C3_first_stopping_iteration (lib : Lib M S V U) (s : State M S V U) (n : Nat)
    (hn : ∀ k, k ≤ n → (ref_newton source_params lib (iter_state source_params lib s k)).2
      = true) :
    ((∃ s1, adapt_loop source_params lib (n + 1) s = Result.finished s1) ∧
        ∀ m, m ≤ n → ∃ s2, adapt_loop source_params lib m s = Result.out_of_fuel s2) ↔
      ((err_est_rel_total source_params lib (iter_state source_params lib s n) < 5 ∨
          (adapt_result source_params lib (iter_state source_params lib s n)).2.2 = true ∨
          (60000 : Int) ≤ ndof_after_adapt source_params lib (iter_state source_params lib s n)) ∧
        ∀ k, k < n →
          ¬ (err_est_rel_total source_params lib (iter_state source_params lib s k) < 5 ∨
            (adapt_result source_params lib (iter_state source_params lib s k)).2.2 = true ∨
            (60000 : Int)
              ≤ ndof_after_adapt source_params lib (iter_state source_params lib s k))) :=
  adapt_loop_first_stop source_params lib n s hn

/-- The estimator returns 10 (1000 percent), `hp.adapt` adds 30000 DOFs and returns
`false`, Newton converges. -/
def lib_growing : Lib Nat (Int × Bool) Nat Nat :=
  test_lib 10 false 30000 (fun _ _ => true)

theorem C3_first_stopping_iteration_witness :
    (∀ k, k ≤ 1 →
      (ref_newton source_params lib_growing (iter_state source_params lib_growing test_state k)).2
        = true) ∧
    ((∃ s1, adapt_loop source_params lib_growing (1 + 1) test_state = Result.finished s1) ∧
      ∀ m, m ≤ 1 → ∃ s2, adapt_loop source_params lib_growing m test_state
        = Result.out_of_fuel s2) :=
  have hn : ∀ k, k ≤ 1 →
      (ref_newton source_params lib_growing (iter_state source_params lib_growing test_state k)).2
        = true := by
    intro k _
    simp [ref_newton, lib_growing, test_lib]
  ⟨hn, (C3_first_stopping_iteration lib_growing test_state 1 hn).mpr (by
    refine ⟨Or.inr (Or.inr ?_), ?_⟩
    · norm_num [iter_state, adapt_body, ndof_after_adapt, adapt_result, err_est_rel_total,
        ref_newton, free_ref, State.log, lib_growing, test_lib, test_state, source_params,
        ERR_STOP, NDOF_STOP]
    · intro k hk
      have hk0 : k = 0 := Nat.lt_one_iff.mp hk
      subst hk0
      norm_num [iter_state, ndof_after_adapt, adapt_result, err_est_rel_total,
        lib_growing, test_lib, test_state])⟩

/-! ## C4: termination of the adaptivity loop -/

/-- The estimator returns 10 (1000 percent), `hp.adapt` returns `false` and adds no
DOF, Newton converges. -/
def lib_stagnating : Lib Nat (Int × Bool) Nat Nat :=
  test_lib 10 false 0 (fun _ _ => true)

theorem lib_stagnating_loops (fuel : Nat) :
    ∀ s : State Nat (Int × Bool) Nat Nat, s.space.1 < 60000 →
      ∃ s2, adapt_loop source_params lib_stagnating fuel s = Result.out_of_fuel s2 := by
  induction fuel with
  | zero => exact fun s _ => ⟨s, rfl⟩
  | succ fuel ih =>
    intro s hs
    have hn : (ref_newton source_params lib_stagnating s).2 = true := by
      simp [ref_newton, lib_stagnating, test_lib]
    have hns : ¬ stops source_params lib_stagnating s := by
      simp only [stops, err_est_rel_total, ndof_after_adapt, adapt_result, lib_stagnating,
        test_lib, source_params, ERR_STOP, NDOF_STOP]
      norm_num
      exact hs
    rw [adapt_loop_of_not_stops source_params lib_stagnating s fuel hn hns]
    apply ih
    have he : ¬ err_est_rel_total source_params lib_stagnating s < source_params.ERR_STOP :=
      fun h => hns (Or.inl h)
    have hd : ¬ source_params.NDOF_STOP ≤ ndof_after_adapt source_params lib_stagnating s :=
      fun h => hns (Or.inr (Or.inr h))
    rw [adapt_body_refine source_params lib_stagnating s hn he hd]
    simpa [free_ref, adapt_result, lib_stagnating, test_lib] using hs

/-- C4, as stated, fails: every Newton solve of `lib_stagnating` converges, the
ceiling is the finite 60000 and `hp.adapt` never decreases the DOF count, yet the
adaptivity loop entered in `test_state` is not left within any number of
iterations. -/
theorem C4_counterexample :
    (∀ m sp td u v tol mi, (lib_stagnating.solve_newton m sp td u v tol mi).2 = true) ∧
    (∀ m sp u r t st mr, lib_stagnating.get_num_dofs m sp ≤
      lib_stagnating.get_num_dofs (lib_stagnating.adapt m sp u r t st mr).1
        (lib_stagnating.adapt m sp u r t st mr).2.1) ∧
    ∀ fuel, ∃ s2, adapt_loop source_params lib_stagnating fuel test_state
      = Result.out_of_fuel s2 := by
  refine ⟨?_, ?_, ?_⟩
  · intro m sp td u v tol mi
    simp [lib_stagnating, test_lib]
  · intro m sp u r t st mr
    simp [lib_stagnating, test_lib]
  · intro fuel
    exact lib_stagnating_loops fuel test_state (by norm_num [test_state])

/-- C4 (amended): when every Newton solve converges and the coarse DOF count
strictly increases whenever `hp.adapt` reports a refinement (returns `false`), the
adaptivity loop is left normally after at most `NDOF_STOP - ndof + 1` iterations,
`ndof` being the DOF count of the coarse space at loop entry. -/
theorem C4_termination (p : Params) (lib : Lib M S V U)
    (hnewton : ∀ m sp td u v tol mi, (lib.solve_newton m sp td u v tol mi).2 = true)
    (hgrow : ∀ m sp u r t st mr, (lib.adapt m sp u r t st mr).2.2 = false →
      lib.get_num_dofs m sp <
        lib.get_num_dofs (lib.adapt m sp u r t st mr).1 (lib.adapt m sp u r t st mr).2.1)
    (fuel : Nat) :
    ∀ s : State M S V U, (p.NDOF_STOP - lib.get_num_dofs s.mesh s.space).toNat < fuel →
      ∃ s1, adapt_loop p lib fuel s = Result.finished s1 ∧ s1.done = true := by
  induction fuel with
  | zero => exact fun s h => absurd h (Nat.not_lt_zero _)
  | succ fuel ih =>
    intro s hfuel
    have hn : (ref_newton p lib s).2 = true := hnewton _ _ _ _ _ _ _
    by_cases hs : stops p lib s
    · exact ⟨_, adapt_loop_of_stops p lib s fuel hn hs⟩
    · have he : ¬ err_est_rel_total p lib s < p.ERR_STOP := fun h => hs (Or.inl h)
      have hd : ¬ p.NDOF_STOP ≤ ndof_after_adapt p lib s := fun h => hs (Or.inr (Or.inr h))
      have ha : (adapt_result p lib s).2.2 = false := by
        cases h : (adapt_result p lib s).2.2
        · rfl
        · exact absurd (Or.inr (Or.inl h)) hs
      have hlt : lib.get_num_dofs s.mesh s.space < ndof_after_adapt p lib s :=
        hgrow _ _ _ _ _ _ _ ha
      rw [adapt_loop_of_not_stops p lib s fuel hn hs]
      apply ih
      rw [adapt_body_refine p lib s hn he hd]
      simp only [free_ref]
      have hd2 : ndof_after_adapt p lib s < p.NDOF_STOP := lt_of_not_le hd
      have : lib.get_num_dofs (adapt_result p lib s).1 (adapt_result p lib s).2.1
          = ndof_after_adapt p lib s := rfl
      rw [this]
      omega

theorem C4_termination_witness :
    (∀ m sp td u v tol mi, (lib_growing.solve_newton m sp td u v tol mi).2 = true) ∧
    (∀ m sp u r t st mr, (lib_growing.adapt m sp u r t st mr).2.2 = false →
      lib_growing.get_num_dofs m sp <
        lib_growing.get_num_dofs (lib_growing.adapt m sp u r t st mr).1
          (lib_growing.adapt m sp u r t st mr).2.1) ∧
    (source_params.NDOF_STOP
      - lib_growing.get_num_dofs test_state.mesh test_state.space).toNat < 59801 ∧
    ∃ s1, adapt_loop source_params lib_growing 59801 test_state = Result.finished s1 ∧
      s1.done = true :=
  have h1 : ∀ m sp td u v tol mi,
      (lib_growing.solve_newton m sp td u v tol mi).2 = true := by
    intro m sp td u v tol mi
    simp [lib_growing, test_lib]
  have h2 : ∀ m sp u r t st mr, (lib_growing.adapt m sp u r t st mr).2.2 = false →
      lib_growing.get_num_dofs m sp <
        lib_growing.get_num_dofs (lib_growing.adapt m sp u r t st mr).1
          (lib_growing.adapt m sp u r t st mr).2.1 := by
    intro m sp u r t st mr _
    simp [lib_growing, test_lib]
  have h3 : (source_params.NDOF_STOP
      - lib_growing.get_num_dofs test_state.mesh test_state.space).toNat < 59801 := by
    norm_num [source_params, NDOF_STOP, lib_growing, test_lib, test_state]
  ⟨h1, h2, h3, C4_termination source_params lib_growing h1 h2 59801 test_state h3⟩

/-! ## Traces of the parts of a time step -/

/-- The event is one of the calls of the derefinement block (lines 173-193). -/
def Event.is_deref : Event → Bool
  | Event.mesh_copy_base => true
  | Event.set_uniform_order _ => true
  | Event.project_coarse_vec _ => true
  | Event.solve_newton false _ _ => true
  | Event.set_sln => true
  | _ => false

theorem adapt_body_trace (p : Params) (lib : Lib M S V U) (s : State M S V U) :
    ∃ new, (adapt_body p lib s).2.trace = s.trace ++ Event.info_step s.ts s.as :: new ∧
      ∀ e ∈ new, e.is_deref = false := by
  by_cases hn : (ref_newton p lib s).2 = true
  · by_cases he : err_est_rel_total p lib s < p.ERR_STOP
    · rw [adapt_body_below p lib s hn he]
      exact ⟨_, by simp only [free_ref, List.append_assoc]; rfl, by simp [Event.is_deref]⟩
    · by_cases hd : p.NDOF_STOP ≤ ndof_after_adapt p lib s
      · rw [adapt_body_break p lib s hn he hd]
        exact ⟨_, rfl, by simp [Event.is_deref]⟩
      · rw [adapt_body_refine p lib s hn he hd]
        exact ⟨_, by simp only [free_ref, List.append_assoc]; rfl, by simp [Event.is_deref]⟩
  · have hn2 : (ref_newton p lib s).2 = false := by simpa using hn
    refine ⟨[Event.new_ref s.ts s.as, Event.project_ref_vec (decide (s.as = 1)),
      Event.solve_newton true p.NEWTON_TOL_FINE false, Event.error newton_msg], ?_, ?_⟩
    · simp [adapt_body, hn2, State.log]
    · simp [Event.is_deref]

theorem adapt_body_ts (p : Params) (lib : Lib M S V U) (s : State M S V U) :
    (adapt_body p lib s).2.ts = s.ts := by
  unfold adapt_body
  simp only [State.log, free_ref]
  split_ifs <;> rfl

theorem adapt_loop_trace (p : Params) (lib : Lib M S V U) (fuel : Nat) :
    ∀ s : State M S V U, ∃ new,
      (adapt_loop p lib fuel s).state.trace = s.trace ++ new ∧
      (∀ e ∈ new, e.is_deref = false) ∧
      (0 < fuel → new.head? = some (Event.info_step s.ts s.as)) := by
  induction fuel with
  | zero => exact fun s => ⟨[], by simp [adapt_loop, Result.state], by simp, by simp⟩
  | succ fuel ih =>
    intro s
    obtain ⟨new, h1, h2⟩ := adapt_body_trace p lib s
    have hfin : ∃ new, (adapt_body p lib s).2.trace = s.trace ++ new ∧
        (∀ e ∈ new, e.is_deref = false) ∧
        (0 < fuel + 1 → new.head? = some (Event.info_step s.ts s.as)) :=
      ⟨_, h1, by
        intro e he
        rcases List.mem_cons.mp he with h | h
        · subst h; rfl
        · exact h2 e h, fun _ => rfl⟩
    rcases hb : adapt_body p lib s with ⟨f, s1⟩
    rw [hb] at h1 hfin
    cases f with
    | abort msg => simpa [adapt_loop, hb, Result.state] using hfin
    | brk => simpa [adapt_loop, hb, Result.state] using hfin
    | next =>
      by_cases hd : s1.done = false
      · obtain ⟨new2, h3, h4, _⟩ := ih s1
        refine ⟨Event.info_step s.ts s.as :: new ++ new2, ?_, ?_, fun _ => rfl⟩
        · simp only [adapt_loop, hb, hd, if_true]
          rw [h3]
          simp only at h1
          rw [h1]
          simp
        · intro e he
          rcases List.mem_append.mp he with h | h
          · rcases List.mem_cons.mp h with h | h
            · subst h; rfl
            · exact h2 e h
          · exact h4 e h
      · simpa [adapt_loop, hb, hd, Result.state] using hfin

theorem adapt_loop_ts (p : Params) (lib : Lib M S V U) (fuel : Nat) :
    ∀ s : State M S V U, (adapt_loop p lib fuel s).state.ts = s.ts := by
  induction fuel with
  | zero => exact fun s => rfl
  | succ fuel ih =>
    intro s
    have h := adapt_body_ts p lib s
    rcases hb : adapt_body p lib s with ⟨f, s1⟩
    rw [hb] at h
    cases f with
    | abort msg => simpa [adapt_loop, hb, Result.state] using h
    | brk => simpa [adapt_loop, hb, Result.state] using h
    | next =>
      by_cases hd : s1.done = false
      · simp only [adapt_loop, hb, hd, if_true]
        rw [ih s1]
        exact h
      · simpa [adapt_loop, hb, hd, Result.state] using h

theorem deref_cond_iff (p : Params) (ts : Nat) :
    deref_cond p ts = true ↔ (1 < ts ∧ Int.tmod (ts : Int) p.UNREF_FREQ = 0) := by
  simp [deref_cond]

theorem derefine_skip (p : Params) (lib : Lib M S V U) (s : State M S V U)
    (h : ¬ (1 < s.ts ∧ Int.tmod (s.ts : Int) p.UNREF_FREQ = 0)) :
    derefine p lib s = (Flow.next, s) := by
  have hc : ¬ deref_cond p s.ts = true := fun hc => h ((deref_cond_iff p s.ts).mp hc)
  simp [derefine, hc]

/-- The result of the Newton solve of the derefinement block (lines 188-189). -/
def deref_newton (p : Params) (lib : Lib M S V U) (s : State M S V U) : V × Bool :=
  lib.solve_newton s.basemesh (lib.set_uniform_order s.basemesh s.space p.P_INIT) p.TIME_DISCR
    s.sln_prev_time
    (lib.project_global s.basemesh (lib.set_uniform_order s.basemesh s.space p.P_INIT)
      s.ref_sln s.coeff_vec)
    p.NEWTON_TOL_COARSE p.NEWTON_MAX_ITER

theorem derefine_run (p : Params) (lib : Lib M S V U) (s : State M S V U)
    (h : 1 < s.ts ∧ Int.tmod (s.ts : Int) p.UNREF_FREQ = 0) :
    (derefine p lib s).2.trace = s.trace ++
        ([Event.mesh_copy_base, Event.set_uniform_order p.P_INIT,
          Event.project_coarse_vec true,
          Event.solve_newton false p.NEWTON_TOL_COARSE (deref_newton p lib s).2] ++
        (if (deref_newton p lib s).2 = true then [Event.set_sln]
          else [Event.error newton_msg])) ∧
      (derefine p lib s).1 =
        (if (deref_newton p lib s).2 = true then Flow.next else Flow.abort newton_msg) ∧
      (derefine p lib s).2.mesh = s.basemesh ∧
      (derefine p lib s).2.space = lib.set_uniform_order s.basemesh s.space p.P_INIT ∧
      (derefine p lib s).2.coeff_vec = (deref_newton p lib s).1 ∧
      ((deref_newton p lib s).2 = true →
        (derefine p lib s).2.sln = lib.set_coeff_vector s.basemesh
          (lib.set_uniform_order s.basemesh s.space p.P_INIT) (deref_newton p lib s).1) := by
  have hc : deref_cond p s.ts = true := (deref_cond_iff p s.ts).mpr h
  cases hr : (deref_newton p lib s).2 <;>
    simp [deref_newton] at hr <;>
    simp [derefine, hc, deref_newton, hr, State.log]

theorem derefine_ts (p : Params) (lib : Lib M S V U) (s : State M S V U) :
    (derefine p lib s).2.ts = s.ts ∧ (derefine p lib s).2.basemesh = s.basemesh := by
  by_cases hc : deref_cond p s.ts = true
  · cases hr : (deref_newton p lib s).2 <;>
      simp [deref_newton] at hr <;>
      simp [derefine, hc, hr, State.log]
  · simp [derefine, hc]

theorem derefine_not_brk (p : Params) (lib : Lib M S V U) (s : State M S V U) :
    (derefine p lib s).1 = Flow.next ∨ (derefine p lib s).1 = Flow.abort newton_msg := by
  by_cases hc : deref_cond p s.ts = true
  · cases hr : (deref_newton p lib s).2 <;>
      simp [deref_newton] at hr <;>
      simp [derefine, hc, hr, State.log]
  · simp [derefine, hc]

theorem time_step_trace (p : Params) (lib : Lib M S V U) (fuel : Nat) (s : State M S V U) :
    ∃ L, (time_step p lib fuel s).state.trace = (derefine p lib s).2.trace ++ L ∧
      (∀ e ∈ L, e.is_deref = false) ∧
      ((derefine p lib s).1 = Flow.abort newton_msg → L = []) ∧
      (0 < fuel → (derefine p lib s).1 = Flow.next →
        L.head? = some (Event.info_step s.ts 1)) := by
  have hts := (derefine_ts p lib s).1
  rcases hd : derefine p lib s with ⟨f, s1⟩
  rw [hd] at hts
  simp only at hts
  have hf := derefine_not_brk p lib s
  rw [hd] at hf
  simp only at hf
  rcases hf with hf | hf
  · subst hf
    obtain ⟨new, h1, h2, h3⟩ := adapt_loop_trace p lib fuel (loop_entry s1)
    rcases hl : adapt_loop p lib fuel (loop_entry s1) with s2 | ⟨s2, msg⟩ | s2
    · rw [hl] at h1
      refine ⟨new ++ [Event.copy_prev_time], ?_, ?_, ?_, ?_⟩
      · simp only [time_step, hd, hl, Result.state, State.log]
        simp only [Result.state] at h1
        rw [h1]
        simp [loop_entry]
      · intro e he
        rcases List.mem_append.mp he with h | h
        · exact h2 e h
        · simp at h
          subst h
          rfl
      · intro h
        cases h
      · intro hfuel _
        have h4 := h3 hfuel
        cases new with
        | nil => simp at h4
        | cons a t =>
          simp only [List.head?_cons, Option.some.injEq] at h4
          subst h4
          simp [loop_entry, hts]
    · rw [hl] at h1
      refine ⟨new, ?_, h2, ?_, ?_⟩
      · simp only [time_step, hd, hl, Result.state]
        simpa [Result.state, loop_entry] using h1
      · intro h
        cases h
      · intro hfuel _
        simpa [loop_entry, hts] using h3 hfuel
    · rw [hl] at h1
      refine ⟨new, ?_, h2, ?_, ?_⟩
      · simp only [time_step, hd, hl, Result.state]
        simpa [Result.state, loop_entry] using h1
      · intro h
        cases h
      · intro hfuel _
        simpa [loop_entry, hts] using h3 hfuel
  · subst hf
    exact ⟨[], by simp [time_step, hd, Result.state], by simp, fun _ => rfl, fun _ h => by cases h⟩

/-! ## The time stepping loop, step by step -/

theorem derefine_extends (p : Params) (lib : Lib M S V U) (s : State M S V U) :
    s.trace <+: (derefine p lib s).2.trace := by
  by_cases h : 1 < s.ts ∧ Int.tmod (s.ts : Int) p.UNREF_FREQ = 0
  · rw [(derefine_run p lib s h).1]
    exact List.prefix_append _ _
  · rw [derefine_skip p lib s h]

theorem time_step_extends (p : Params) (lib : Lib M S V U) (fuel : Nat) (s : State M S V U) :
    s.trace <+: (time_step p lib fuel s).state.trace := by
  obtain ⟨L, h, _⟩ := time_step_trace p lib fuel s
  rw [h]
  exact (derefine_extends p lib s).trans (List.prefix_append _ _)

theorem time_step_ts (p : Params) (lib : Lib M S V U) (fuel : Nat) (s s1 : State M S V U)
    (h : time_step p lib fuel s = Result.finished s1) : s1.ts = s.ts := by
  have hts := (derefine_ts p lib s).1
  rcases hd : derefine p lib s with ⟨f, s0⟩
  rw [hd] at hts
  simp only at hts
  have hl := adapt_loop_ts p lib fuel (loop_entry s0)
  cases f with
  | abort msg => simp [time_step, hd] at h
  | next =>
    rcases hr : adapt_loop p lib fuel (loop_entry s0) with s2 | ⟨s2, msg⟩ | s2 <;>
      rw [hr] at hl <;> simp [time_step, hd, hr] at h
    subst h
    simpa [State.log, Result.state, loop_entry, hts] using hl
  | brk =>
    rcases hr : adapt_loop p lib fuel (loop_entry s0) with s2 | ⟨s2, msg⟩ | s2 <;>
      rw [hr] at hl <;> simp [time_step, hd, hr] at h
    subst h
    simpa [State.log, Result.state, loop_entry, hts] using hl

theorem time_loop_extends (p : Params) (lib : Lib M S V U) (fuel n : Nat) :
    ∀ s : State M S V U, s.trace <+: (time_loop p lib fuel n s).state.trace := by
  induction n with
  | zero => exact fun s => List.prefix_refl _
  | succ n ih =>
    intro s
    have h := time_step_extends p lib fuel s
    rcases hr : time_step p lib fuel s with s1 | ⟨s1, msg⟩ | s1 <;> rw [hr] at h
    · simp only [time_loop, hr]
      exact h.trans (ih { s1 with ts := s1.ts + 1 })
    · simpa [time_loop, hr] using h
    · simpa [time_loop, hr] using h

theorem time_loop_step_extends (p : Params) (lib : Lib M S V U) (fuel n : Nat)
    (s : State M S V U) :
    (time_step p lib fuel s).state.trace <+: (time_loop p lib fuel (n + 1) s).state.trace := by
  rcases hr : time_step p lib fuel s with s1 | ⟨s1, msg⟩ | s1
  · simp only [time_loop, hr]
    exact time_loop_extends p lib fuel n { s1 with ts := s1.ts + 1 }
  · simp [time_loop, hr]
  · simp [time_loop, hr]

theorem time_loop_add (p : Params) (lib : Lib M S V U) (fuel m k : Nat) :
    ∀ s s1 : State M S V U, time_loop p lib fuel k s = Result.finished s1 →
      time_loop p lib fuel (k + m) s = time_loop p lib fuel m s1 ∧ s1.ts = s.ts + k := by
  induction k with
  | zero =>
    intro s s1 h
    simp only [time_loop, Result.finished.injEq] at h
    subst h
    simp
  | succ k ih =>
    intro s s1 h
    rw [Nat.succ_add]
    rcases hr : time_step p lib fuel s with s2 | ⟨s2, msg⟩ | s2
    · simp only [time_loop, hr] at h ⊢
      obtain ⟨h1, h2⟩ := ih _ _ h
      refine ⟨h1, ?_⟩
      rw [h2]
      simp only
      rw [time_step_ts p lib fuel s s2 hr]
      omega
    · simp [time_loop, hr] at h
    · simp [time_loop, hr] at h

theorem run_reach (p : Params) (lib : Lib M S V U) (fuel k : Nat) (s : State M S V U)
    (h : run p lib fuel k = Result.finished s) :
    s.ts = k + 1 ∧ ∀ m, run p lib fuel (k + m) = time_loop p lib fuel m s := by
  rcases hi : init p lib with ⟨f, s0⟩
  cases f with
  | abort msg => simp [run, hi] at h
  | next =>
    simp only [run, hi] at h ⊢
    refine ⟨?_, fun m => (time_loop_add p lib fuel m k _ _ h).1⟩
    rw [(time_loop_add p lib fuel 0 k _ _ h).2]
    simp only
    omega
  | brk =>
    simp only [run, hi] at h ⊢
    refine ⟨?_, fun m => (time_loop_add p lib fuel m k _ _ h).1⟩
    rw [(time_loop_add p lib fuel 0 k _ _ h).2]
    simp only
    omega

theorem run_step_extends (p : Params) (lib : Lib M S V U) (fuel n k : Nat) (s : State M S V U)
    (hk : k < n) (h : run p lib fuel k = Result.finished s) :
    (time_step p lib fuel s).state.trace <+: (run p lib fuel n).state.trace := by
  obtain ⟨m, rfl⟩ : ∃ m, n = k + (m + 1) := ⟨n - k - 1, by omega⟩
  rw [(run_reach p lib fuel k s h).2 (m + 1)]
  exact time_loop_step_extends p lib fuel m s

/-! ## C5: when the derefinement block runs -/

/-- The derefinement block on the state: when the test of line 171 holds, the
coarse mesh is the base mesh, the space is the one reset to `P_INIT`, the
coefficient vector is what `solve_newton` with `NEWTON_TOL_COARSE` made of the
projection of the last reference solution, and the coarse solution is rebound
to it when Newton converged; when Newton failed, `error` is called. -/
theorem derefine_state (p : Params) (lib : Lib M S V U) (s : State M S V U)
    (h : 1 < s.ts ∧ Int.tmod (s.ts : Int) p.UNREF_FREQ = 0) :
    derefine p lib s =
      (if (lib.solve_newton s.basemesh (lib.set_uniform_order s.basemesh s.space p.P_INIT)
          p.TIME_DISCR s.sln_prev_time
          (lib.project_global s.basemesh (lib.set_uniform_order s.basemesh s.space p.P_INIT)
            s.ref_sln s.coeff_vec) p.NEWTON_TOL_COARSE p.NEWTON_MAX_ITER).2 = true then
        (Flow.next,
          { s with
            mesh := s.basemesh
            space := lib.set_uniform_order s.basemesh s.space p.P_INIT
            coeff_vec := (lib.solve_newton s.basemesh
              (lib.set_uniform_order s.basemesh s.space p.P_INIT) p.TIME_DISCR
              s.sln_prev_time
              (lib.project_global s.basemesh
                (lib.set_uniform_order s.basemesh s.space p.P_INIT) s.ref_sln s.coeff_vec)
              p.NEWTON_TOL_COARSE p.NEWTON_MAX_ITER).1
            sln := lib.set_coeff_vector s.basemesh
              (lib.set_uniform_order s.basemesh s.space p.P_INIT)
              (lib.solve_newton s.basemesh
                (lib.set_uniform_order s.basemesh s.space p.P_INIT) p.TIME_DISCR
                s.sln_prev_time
                (lib.project_global s.basemesh
                  (lib.set_uniform_order s.basemesh s.space p.P_INIT) s.ref_sln s.coeff_vec)
                p.NEWTON_TOL_COARSE p.NEWTON_MAX_ITER).1
            trace := s.trace ++ [Event.mesh_copy_base, Event.set_uniform_order p.P_INIT,
              Event.project_coarse_vec true,
              Event.solve_newton false p.NEWTON_TOL_COARSE true, Event.set_sln] })
      else
        (Flow.abort newton_msg,
          { s with
            mesh := s.basemesh
            space := lib.set_uniform_order s.basemesh s.space p.P_INIT
            coeff_vec := (lib.solve_newton s.basemesh
              (lib.set_uniform_order s.basemesh s.space p.P_INIT) p.TIME_DISCR
              s.sln_prev_time
              (lib.project_global s.basemesh
                (lib.set_uniform_order s.basemesh s.space p.P_INIT) s.ref_sln s.coeff_vec)
              p.NEWTON_TOL_COARSE p.NEWTON_MAX_ITER).1
            trace := s.trace ++ [Event.mesh_copy_base, Event.set_uniform_order p.P_INIT,
              Event.project_coarse_vec true,
              Event.solve_newton false p.NEWTON_TOL_COARSE false,
              Event.error newton_msg] })) := by
  have hc : deref_cond p s.ts = true := (deref_cond_iff p s.ts).mpr h
  cases hr : (lib.solve_newton s.basemesh (lib.set_uniform_order s.basemesh s.space p.P_INIT)
      p.TIME_DISCR s.sln_prev_time
      (lib.project_global s.basemesh (lib.set_uniform_order s.basemesh s.space p.P_INIT)
        s.ref_sln s.coeff_vec) p.NEWTON_TOL_COARSE p.NEWTON_MAX_ITER).2 <;>
    simp [derefine, hc, hr, State.log]

theorem time_step_of_derefine (p : Params) (lib : Lib M S V U) (fuel : Nat)
    (s : State M S V U) :
    ((derefine p lib s).1 = Flow.next →
      time_step p lib fuel s =
        match adapt_loop p lib fuel (loop_entry (derefine p lib s).2) with
        | Result.finished s2 =>
          Result.finished ({ s2 with sln_prev_time := s2.ref_sln }.log Event.copy_prev_time)
        | r => r) ∧
    ((derefine p lib s).1 = Flow.abort newton_msg →
      time_step p lib fuel s = Result.aborted (derefine p lib s).2 newton_msg) := by
  rcases hd : derefine p lib s with ⟨f, s0⟩
  constructor
  · intro h
    simp only at h
    subst h
    simp only [time_step, hd]
  · intro h
    simp only at h
    subst h
    simp only [time_step, hd]

/-- C5: let the run have reached time step `ts = k + 1` (with `ts` at most the
number `n` of time steps) in state `s`; let `sp` be the coarse space reset to
`P_INIT` on the base mesh and `nw` the result of `solve_newton` with
`NEWTON_TOL_COARSE` on it, started from the projection of the last reference
solution.  The events of that step, which are part of the trace of the whole
run, split into the events `D` of the derefinement block followed by the events
`L` of the adaptivity loop and of the final copy.  When `ts > 1` and
`ts % UNREF_FREQ == 0`, the block is executed: `D` is the whole block in order,
the coarse mesh is the base mesh, the space is `sp`, the coefficient vector is
the one returned by that Newton solve, and either Newton converged, the coarse
solution is rebound by `set_coeff_vector` to that vector on `sp` and the
adaptivity loop starts from the state so obtained, its first iteration coming
right after the block, or Newton failed and the step is the fatal error with no
iteration.  Otherwise `D` is empty, the block changes nothing and the loop
starts from `s`.  `L` never contains an event of the block.
(`UNREF_FREQ` is taken nonzero: `ts % 0` has no defined value in C++.) -/
theorem C5_derefinement_schedule (p : Params) (lib : Lib M S V U) (fuel n k : Nat)
    (s : State M S V U) (sp : S) (nw : V × Bool) (_hU : p.UNREF_FREQ ≠ 0) (hk : k < n)
    (hreach : run p lib fuel k = Result.finished s)
    (hsp : sp = lib.set_uniform_order s.basemesh s.space p.P_INIT)
    (hnw : nw = lib.solve_newton s.basemesh sp p.TIME_DISCR s.sln_prev_time
      (lib.project_global s.basemesh sp s.ref_sln s.coeff_vec)
      p.NEWTON_TOL_COARSE p.NEWTON_MAX_ITER) :
    s.ts = k + 1 ∧
    (time_step p lib fuel s).state.trace <+: (run p lib fuel n).state.trace ∧
    ∃ D L, (time_step p lib fuel s).state.trace = s.trace ++ D ++ L ∧
      (∀ e ∈ L, e.is_deref = false) ∧
      ((1 < k + 1 ∧ Int.tmod ((k + 1 : Nat) : Int) p.UNREF_FREQ = 0) →
        D = [Event.mesh_copy_base, Event.set_uniform_order p.P_INIT,
              Event.project_coarse_vec true,
              Event.solve_newton false p.NEWTON_TOL_COARSE nw.2] ++
              (if nw.2 = true then [Event.set_sln] else [Event.error newton_msg]) ∧
          (nw.2 = false → L = [] ∧
            time_step p lib fuel s = Result.aborted
              { s with mesh := s.basemesh, space := sp, coeff_vec := nw.1,
                       trace := s.trace ++ D } newton_msg) ∧
          (nw.2 = true →
            derefine p lib s = (Flow.next,
              { s with mesh := s.basemesh, space := sp, coeff_vec := nw.1,
                       sln := lib.set_coeff_vector s.basemesh sp nw.1,
                       trace := s.trace ++ D }) ∧
            time_step p lib fuel s =
              (match adapt_loop p lib fuel (loop_entry
                  { s with mesh := s.basemesh, space := sp, coeff_vec := nw.1,
                           sln := lib.set_coeff_vector s.basemesh sp nw.1,
                           trace := s.trace ++ D }) with
                | Result.finished s2 =>
                  Result.finished
                    ({ s2 with sln_prev_time := s2.ref_sln }.log Event.copy_prev_time)
                | r => r) ∧
            (0 < fuel → L.head? = some (Event.info_step (k + 1) 1))) ∧
          (derefine p lib s).2.mesh = s.basemesh ∧
          (derefine p lib s).2.space = sp) ∧
      (¬ (1 < k + 1 ∧ Int.tmod ((k + 1 : Nat) : Int) p.UNREF_FREQ = 0) →
        D = [] ∧ derefine p lib s = (Flow.next, s) ∧
          time_step p lib fuel s =
            (match adapt_loop p lib fuel (loop_entry s) with
              | Result.finished s2 =>
                Result.finished
                  ({ s2 with sln_prev_time := s2.ref_sln }.log Event.copy_prev_time)
              | r => r) ∧
          (0 < fuel → L.head? = some (Event.info_step (k + 1) 1))) := by
  have hts := (run_reach p lib fuel k s hreach).1
  refine ⟨hts, run_step_extends p lib fuel n k s hk hreach, ?_⟩
  obtain ⟨L, hL, hLd, hLab, hLhead⟩ := time_step_trace p lib fuel s
  obtain ⟨hstep, hstep_ab⟩ := time_step_of_derefine p lib fuel s
  rw [hts] at hLhead
  by_cases hc : 1 < k + 1 ∧ Int.tmod ((k + 1 : Nat) : Int) p.UNREF_FREQ = 0
  · have hc2 : 1 < s.ts ∧ Int.tmod (s.ts : Int) p.UNREF_FREQ = 0 := by rw [hts]; exact hc
    have hder := derefine_state p lib s hc2
    rw [← hsp, ← hnw] at hder
    cases hr : nw.2
    · rw [hr] at hder
      simp only [Bool.false_eq_true, if_false] at hder
      have hnil : L = [] := hLab (by rw [hder])
      have habort := hstep_ab (by rw [hder])
      rw [hder] at habort hL
      refine ⟨[Event.mesh_copy_base, Event.set_uniform_order p.P_INIT,
        Event.project_coarse_vec true,
        Event.solve_newton false p.NEWTON_TOL_COARSE false, Event.error newton_msg], L,
        by rw [hL], hLd, ?_, fun h => absurd hc h⟩
      intro _
      refine ⟨by simp, ?_, ?_, ?_, ?_⟩
      · intro _
        exact ⟨hnil, habort⟩
      · intro h
        cases h
      · rw [hder]
      · rw [hder]
    · rw [hr] at hder
      simp only [if_true] at hder
      have hloop := hstep (by rw [hder])
      have hhead : 0 < fuel → L.head? = some (Event.info_step (k + 1) 1) :=
        fun hfuel => hLhead hfuel (by rw [hder])
      rw [hder] at hloop hL
      refine ⟨[Event.mesh_copy_base, Event.set_uniform_order p.P_INIT,
        Event.project_coarse_vec true,
        Event.solve_newton false p.NEWTON_TOL_COARSE true, Event.set_sln], L,
        by rw [hL], hLd, ?_, fun h => absurd hc h⟩
      intro _
      refine ⟨by simp, ?_, ?_, ?_, ?_⟩
      · intro h
        cases h
      · intro _
        exact ⟨hder, hloop, hhead⟩
      · rw [hder]
      · rw [hder]
  · have hc2 : ¬ (1 < s.ts ∧ Int.tmod (s.ts : Int) p.UNREF_FREQ = 0) := by rw [hts]; exact hc
    have hskip := derefine_skip p lib s hc2
    rw [hskip] at hL hLhead hstep
    refine ⟨[], L, by rw [hL, List.append_nil], hLd, fun h => absurd h hc, ?_⟩
    intro _
    exact ⟨rfl, hskip, hstep rfl, fun hfuel => hLhead hfuel rfl⟩

/-- The state in which the run over `lib_small_error` reaches time step 2. -/
def state_at_step_2 : State Nat (Int × Bool) Nat Nat :=
  (run source_params lib_small_error 1 1).state

theorem run_reaches_step_2 :
    run source_params lib_small_error 1 1 = Result.finished state_at_step_2 := by
  norm_num [state_at_step_2, run, init, time_loop, time_step, derefine, deref_cond, loop_entry,
    adapt_loop, adapt_body, ref_newton, ref_init_vec, ref_mesh, ref_space, new_ref_sln,
    err_est_rel_total, free_ref, State.log, Result.state, lib_small_error, test_lib,
    source_params, ERR_STOP, INIT_REF_NUM]

theorem C5_derefinement_schedule_witness :
    source_params.UNREF_FREQ ≠ 0 ∧
    1 < 2 ∧ run source_params lib_small_error 1 1 = Result.finished state_at_step_2 ∧
    state_at_step_2.ts = 1 + 1 ∧
    (time_step source_params lib_small_error 1 state_at_step_2).state.trace
      <+: (run source_params lib_small_error 1 2).state.trace ∧
    (lib_small_error.solve_newton state_at_step_2.basemesh
      (lib_small_error.set_uniform_order state_at_step_2.basemesh state_at_step_2.space
        source_params.P_INIT)
      source_params.TIME_DISCR state_at_step_2.sln_prev_time
      (lib_small_error.project_global state_at_step_2.basemesh
        (lib_small_error.set_uniform_order state_at_step_2.basemesh state_at_step_2.space
          source_params.P_INIT)
        state_at_step_2.ref_sln state_at_step_2.coeff_vec)
      source_params.NEWTON_TOL_COARSE source_params.NEWTON_MAX_ITER) = (8, true) ∧
    (derefine source_params lib_small_error state_at_step_2).2.mesh = 2 ∧
    (derefine source_params lib_small_error state_at_step_2).2.space = (200, false) ∧
    (derefine source_params lib_small_error state_at_step_2).2.coeff_vec = 8 ∧
    (derefine source_params lib_small_error state_at_step_2).2.sln = 9 := by
  have hnw : (lib_small_error.solve_newton state_at_step_2.basemesh
      (lib_small_error.set_uniform_order state_at_step_2.basemesh state_at_step_2.space
        source_params.P_INIT)
      source_params.TIME_DISCR state_at_step_2.sln_prev_time
      (lib_small_error.project_global state_at_step_2.basemesh
        (lib_small_error.set_uniform_order state_at_step_2.basemesh state_at_step_2.space
          source_params.P_INIT)
        state_at_step_2.ref_sln state_at_step_2.coeff_vec)
      source_params.NEWTON_TOL_COARSE source_params.NEWTON_MAX_ITER) = (8, true) := by
    norm_num [state_at_step_2, run, init, time_loop, time_step, derefine, deref_cond,
      loop_entry, adapt_loop, adapt_body, ref_newton, ref_init_vec, ref_mesh, ref_space,
      new_ref_sln, err_est_rel_total, free_ref, State.log, Result.state, lib_small_error,
      test_lib, source_params, ERR_STOP, INIT_REF_NUM]
  have hbase : state_at_step_2.basemesh = 2 := by
    norm_num [state_at_step_2, run, init, time_loop, time_step, derefine, deref_cond,
      loop_entry, adapt_loop, adapt_body, ref_newton, ref_init_vec, ref_mesh, ref_space,
      new_ref_sln, err_est_rel_total, free_ref, State.log, Result.state, lib_small_error,
      test_lib, source_params, ERR_STOP, INIT_REF_NUM]
    decide
  have h := C5_derefinement_schedule source_params lib_small_error 1 2 1 state_at_step_2
    _ _ (by decide) (by decide) run_reaches_step_2 rfl rfl
  have hcond : 1 < 1 + 1 ∧ Int.tmod ((1 + 1 : Nat) : Int) source_params.UNREF_FREQ = 0 := by
    decide
  obtain ⟨h1, h2, D, L, _, _, hD, _⟩ := h
  have hder := ((hD hcond).2.2.1 (by rw [hnw])).1
  rw [hnw] at hder
  refine ⟨by decide, by decide, run_reaches_step_2, h1, h2, hnw, ?_, ?_, ?_, ?_⟩
  · rw [hder]
    exact hbase
  · rw [hder]
    simp [lib_small_error, test_lib, hbase]
  · rw [hder]
  · rw [hder]
    simp [lib_small_error, test_lib]

/-! ## C6: derefinement period 1 -/

theorem run_zero (p : Params) (lib : Lib M S V U) (fuel : Nat) (s : State M S V U)
    (h : run p lib fuel 0 = Result.finished s) : s.mesh = s.basemesh := by
  cases hr : (lib.solve_newton ((lib.refine_all_elements)^[p.INIT_REF_NUM.toNat] lib.load)
      (lib.H1Space ((lib.refine_all_elements)^[p.INIT_REF_NUM.toNat] lib.load) p.P_INIT)
      p.TIME_DISCR (lib.Solution_init ((lib.refine_all_elements)^[p.INIT_REF_NUM.toNat] lib.load))
      (lib.project_global ((lib.refine_all_elements)^[p.INIT_REF_NUM.toNat] lib.load)
        (lib.H1Space ((lib.refine_all_elements)^[p.INIT_REF_NUM.toNat] lib.load) p.P_INIT)
        (lib.Solution_init ((lib.refine_all_elements)^[p.INIT_REF_NUM.toNat] lib.load))
        (lib.AVector (lib.get_num_dofs ((lib.refine_all_elements)^[p.INIT_REF_NUM.toNat] lib.load)
          (lib.H1Space ((lib.refine_all_elements)^[p.INIT_REF_NUM.toNat] lib.load) p.P_INIT))))
      p.NEWTON_TOL_COARSE p.NEWTON_MAX_ITER).2 <;>
    simp [run, init, hr, time_loop, State.log] at h
  subst h
  rfl

/-- C6, as stated, fails at the first step: in the run with the source parameters
(`UNREF_FREQ = 1`) over `lib_small_error`, time step 1 starts directly with its
first adaptivity iteration; no `mesh.copy(&basemesh)` is executed in that step. -/
theorem C6_counterexample :
    source_params.UNREF_FREQ = 1 ∧
    ∃ s L, run source_params lib_small_error 1 0 = Result.finished s ∧ s.ts = 1 ∧
      (time_step source_params lib_small_error 1 s).state.trace = s.trace ++ L ∧
      L.head? = some (Event.info_step 1 1) ∧ Event.mesh_copy_base ∉ L := by
  refine ⟨rfl, (run source_params lib_small_error 1 0).state, ?_⟩
  have hrun : run source_params lib_small_error 1 0
      = Result.finished (run source_params lib_small_error 1 0).state := by
    norm_num [run, init, time_loop, State.log, Result.state, lib_small_error, test_lib]
  have hts := (run_reach source_params lib_small_error 1 0 _ hrun).1
  have hskip := derefine_skip source_params lib_small_error
    (run source_params lib_small_error 1 0).state (by rw [hts]; decide)
  obtain ⟨L, hL, hLd, _, hLhead⟩ := time_step_trace source_params lib_small_error 1
    (run source_params lib_small_error 1 0).state
  rw [hskip] at hL hLhead
  rw [hts] at hLhead
  exact ⟨L, hrun, hts, hL, hLhead (by decide) rfl, fun hmem => by
    have := hLd _ hmem
    simp [Event.is_deref] at this⟩

/-- C6 (amended): with `UNREF_FREQ = 1`, every time step with index `ts = k + 1`
from 2 to the number of time steps begins with `mesh.copy(&basemesh)`, before any
adaptivity iteration of that step; time step 1 executes no reset (the guard
`ts > 1`), its coarse mesh being the copy of the base mesh made at
initialisation; so in every time step the coarse mesh equals the base mesh when
the adaptivity loop is entered. -/
theorem C6_reset_each_step (p : Params) (lib : Lib M S V U) (fuel n k : Nat)
    (s : State M S V U) (hU : p.UNREF_FREQ = 1) (hk : k < n)
    (hreach : run p lib fuel k = Result.finished s) :
    s.ts = k + 1 ∧
    (time_step p lib fuel s).state.trace <+: (run p lib fuel n).state.trace ∧
    (1 ≤ k → ∃ rest, (time_step p lib fuel s).state.trace
        = s.trace ++ Event.mesh_copy_base :: rest) ∧
    (k = 0 → derefine p lib s = (Flow.next, s) ∧
      ∃ L, (time_step p lib fuel s).state.trace = s.trace ++ L ∧ Event.mesh_copy_base ∉ L) ∧
    (loop_entry (derefine p lib s).2).mesh = s.basemesh ∧
    (loop_entry (derefine p lib s).2).basemesh = s.basemesh := by
  have hts := (run_reach p lib fuel k s hreach).1
  obtain ⟨L, hL, hLd, _, _⟩ := time_step_trace p lib fuel s
  refine ⟨hts, run_step_extends p lib fuel n k s hk hreach, ?_, ?_, ?_,
    (derefine_ts p lib s).2⟩
  · intro h1
    have hc : 1 < s.ts ∧ Int.tmod (s.ts : Int) p.UNREF_FREQ = 0 := by
      rw [hts, hU]
      exact ⟨by omega, Int.tmod_one _⟩
    refine ⟨[Event.set_uniform_order p.P_INIT, Event.project_coarse_vec true,
        Event.solve_newton false p.NEWTON_TOL_COARSE (deref_newton p lib s).2] ++
      (if (deref_newton p lib s).2 = true then [Event.set_sln]
        else [Event.error newton_msg]) ++ L, ?_⟩
    rw [hL, (derefine_run p lib s hc).1]
    simp only [List.append_assoc, List.cons_append, List.nil_append]
  · intro h0
    have hc : ¬ (1 < s.ts ∧ Int.tmod (s.ts : Int) p.UNREF_FREQ = 0) := by
      rw [hts, h0]
      exact fun h => absurd h.1 (by decide)
    have hskip := derefine_skip p lib s hc
    refine ⟨hskip, L, by rw [hL, hskip], fun hmem => ?_⟩
    have := hLd _ hmem
    simp [Event.is_deref] at this
  · by_cases h0 : k = 0
    · have hc : ¬ (1 < s.ts ∧ Int.tmod (s.ts : Int) p.UNREF_FREQ = 0) := by
        rw [hts, h0]
        exact fun h => absurd h.1 (by decide)
      rw [derefine_skip p lib s hc]
      subst h0
      exact run_zero p lib fuel s hreach
    · have hc : 1 < s.ts ∧ Int.tmod (s.ts : Int) p.UNREF_FREQ = 0 := by
        rw [hts, hU]
        exact ⟨by omega, Int.tmod_one _⟩
      exact (derefine_run p lib s hc).2.2.1

theorem C6_reset_each_step_witness :
    source_params.UNREF_FREQ = 1 ∧ 1 < 2 ∧
    run source_params lib_small_error 1 1 = Result.finished state_at_step_2 ∧
    state_at_step_2.ts = 1 + 1 ∧
    (time_step source_params lib_small_error 1 state_at_step_2).state.trace
      <+: (run source_params lib_small_error 1 2).state.trace ∧
    (1 ≤ 1 → ∃ rest, (time_step source_params lib_small_error 1 state_at_step_2).state.trace
        = state_at_step_2.trace ++ Event.mesh_copy_base :: rest) ∧
    (1 = 0 → derefine source_params lib_small_error state_at_step_2
        = (Flow.next, state_at_step_2) ∧
      ∃ L, (time_step source_params lib_small_error 1 state_at_step_2).state.trace
        = state_at_step_2.trace ++ L ∧ Event.mesh_copy_base ∉ L) ∧
    (loop_entry (derefine source_params lib_small_error state_at_step_2).2).mesh
      = state_at_step_2.basemesh ∧
    (loop_entry (derefine source_params lib_small_error state_at_step_2).2).basemesh
      = state_at_step_2.basemesh :=
  ⟨rfl, by decide, run_reaches_step_2,
    C6_reset_each_step source_params lib_small_error 1 2 1 state_at_step_2 rfl (by decide)
      run_reaches_step_2⟩

/-! ## Properties of the trace kept by the whole run -/

/-- The property `I` of the trace holds after a part that ran to its end, the
property `A` after a part that called `error`. -/
def holds_after (I : List Event → Prop) (A : List Event → String → Prop) :
    Flow × State M S V U → Prop
  | (Flow.abort msg, s) => A s.trace msg
  | (_, s) => I s.trace

/-- The property `I` of the trace holds at a normal or out-of-fuel result, the
property `A` at an aborted one. -/
def result_holds (I : List Event → Prop) (A : List Event → String → Prop) :
    Result (State M S V U) → Prop
  | Result.finished s => I s.trace
  | Result.out_of_fuel s => I s.trace
  | Result.aborted s msg => A s.trace msg

theorem adapt_loop_holds (p : Params) (lib : Lib M S V U) (I : List Event → Prop)
    (A : List Event → String → Prop)
    (h_body : ∀ s : State M S V U, I s.trace → holds_after I A (adapt_body p lib s))
    (fuel : Nat) :
    ∀ s : State M S V U, I s.trace → result_holds I A (adapt_loop p lib fuel s) := by
  induction fuel with
  | zero => exact fun s hs => hs
  | succ fuel ih =>
    intro s hs
    have h := h_body s hs
    rcases hb : adapt_body p lib s with ⟨f, s1⟩
    rw [hb] at h
    cases f with
    | abort msg => simpa [adapt_loop, hb, result_holds, holds_after] using h
    | brk => simpa [adapt_loop, hb, result_holds, holds_after] using h
    | next =>
      by_cases hd : s1.done = false
      · simp only [adapt_loop, hb, hd, if_true]
        exact ih s1 h
      · simpa [adapt_loop, hb, hd, result_holds, holds_after] using h

theorem time_step_holds (p : Params) (lib : Lib M S V U) (I : List Event → Prop)
    (A : List Event → String → Prop)
    (h_deref : ∀ s : State M S V U, I s.trace → holds_after I A (derefine p lib s))
    (h_body : ∀ s : State M S V U, I s.trace → holds_after I A (adapt_body p lib s))
    (h_copy : ∀ t, I t → I (t ++ [Event.copy_prev_time]))
    (fuel : Nat) (s : State M S V U) (hs : I s.trace) :
    result_holds I A (time_step p lib fuel s) := by
  have h := h_deref s hs
  rcases hd : derefine p lib s with ⟨f, s1⟩
  rw [hd] at h
  have key : I s1.trace → result_holds I A
      (match adapt_loop p lib fuel (loop_entry s1) with
        | Result.finished s2 =>
          Result.finished ({ s2 with sln_prev_time := s2.ref_sln }.log Event.copy_prev_time)
        | r => r) := by
    intro h1
    have hl := adapt_loop_holds p lib I A h_body fuel (loop_entry s1) h1
    rcases hr : adapt_loop p lib fuel (loop_entry s1) with s2 | ⟨s2, msg⟩ | s2 <;>
      rw [hr] at hl
    · exact h_copy _ hl
    · exact hl
    · exact hl
  cases f with
  | abort msg => simpa [time_step, hd, result_holds, holds_after] using h
  | next => simpa [time_step, hd] using key h
  | brk => simpa [time_step, hd] using key h

theorem time_loop_holds (p : Params) (lib : Lib M S V U) (I : List Event → Prop)
    (A : List Event → String → Prop)
    (h_deref : ∀ s : State M S V U, I s.trace → holds_after I A (derefine p lib s))
    (h_body : ∀ s : State M S V U, I s.trace → holds_after I A (adapt_body p lib s))
    (h_copy : ∀ t, I t → I (t ++ [Event.copy_prev_time]))
    (fuel n : Nat) :
    ∀ s : State M S V U, I s.trace → result_holds I A (time_loop p lib fuel n s) := by
  induction n with
  | zero => exact fun s hs => hs
  | succ n ih =>
    intro s hs
    have h := time_step_holds p lib I A h_deref h_body h_copy fuel s hs
    rcases hr : time_step p lib fuel s with s1 | ⟨s1, msg⟩ | s1 <;> rw [hr] at h
    · simp only [time_loop, hr]
      exact ih { s1 with ts := s1.ts + 1 } h
    · simpa [time_loop, hr] using h
    · simpa [time_loop, hr] using h

/-- A property of the trace established by the initialisation and kept by the
derefinement block, by the body of the adaptivity loop and by the final copy
holds at the end of the run. -/
theorem run_holds (p : Params) (lib : Lib M S V U) (I : List Event → Prop)
    (A : List Event → String → Prop)
    (h_init : holds_after I A (init p lib))
    (h_deref : ∀ s : State M S V U, I s.trace → holds_after I A (derefine p lib s))
    (h_body : ∀ s : State M S V U, I s.trace → holds_after I A (adapt_body p lib s))
    (h_copy : ∀ t, I t → I (t ++ [Event.copy_prev_time]))
    (fuel n : Nat) : result_holds I A (run p lib fuel n) := by
  rcases hi : init p lib with ⟨f, s0⟩
  rw [hi] at h_init
  cases f with
  | abort msg => simpa [run, hi, result_holds, holds_after] using h_init
  | next =>
    simp only [run, hi]
    exact time_loop_holds p lib I A h_deref h_body h_copy fuel n _ h_init
  | brk =>
    simp only [run, hi]
    exact time_loop_holds p lib I A h_deref h_body h_copy fuel n _ h_init

/-- The result of the Newton solve of the initialisation (lines 158-159). -/
def init_newton (p : Params) (lib : Lib M S V U) : V × Bool :=
  lib.solve_newton ((lib.refine_all_elements)^[p.INIT_REF_NUM.toNat] lib.load)
    (lib.H1Space ((lib.refine_all_elements)^[p.INIT_REF_NUM.toNat] lib.load) p.P_INIT)
    p.TIME_DISCR (lib.Solution_init ((lib.refine_all_elements)^[p.INIT_REF_NUM.toNat] lib.load))
    (lib.project_global ((lib.refine_all_elements)^[p.INIT_REF_NUM.toNat] lib.load)
      (lib.H1Space ((lib.refine_all_elements)^[p.INIT_REF_NUM.toNat] lib.load) p.P_INIT)
      (lib.Solution_init ((lib.refine_all_elements)^[p.INIT_REF_NUM.toNat] lib.load))
      (lib.AVector (lib.get_num_dofs ((lib.refine_all_elements)^[p.INIT_REF_NUM.toNat] lib.load)
        (lib.H1Space ((lib.refine_all_elements)^[p.INIT_REF_NUM.toNat] lib.load) p.P_INIT))))
    p.NEWTON_TOL_COARSE p.NEWTON_MAX_ITER

theorem init_run (p : Params) (lib : Lib M S V U) :
    (init p lib).2.trace = [Event.mesh_copy_base, Event.project_coarse_vec false,
        Event.solve_newton false p.NEWTON_TOL_COARSE (init_newton p lib).2] ++
      (if (init_newton p lib).2 = true then [Event.set_sln] else [Event.error newton_msg]) ∧
    (init p lib).1 =
      (if (init_newton p lib).2 = true then Flow.next else Flow.abort newton_msg) := by
  cases hr : (init_newton p lib).2 <;>
    simp [init_newton] at hr <;>
    simp [init, init_newton, hr, State.log]

theorem adapt_body_abort_eq (p : Params) (lib : Lib M S V U) (s : State M S V U)
    (hn : (ref_newton p lib s).2 = false) :
    adapt_body p lib s = (Flow.abort newton_msg,
      { s with live := s.live ++ [(s.ts, s.as)], coeff_vec := (ref_newton p lib s).1,
               trace := s.trace ++ [Event.info_step s.ts s.as, Event.new_ref s.ts s.as,
                 Event.project_ref_vec (decide (s.as = 1)),
                 Event.solve_newton true p.NEWTON_TOL_FINE false,
                 Event.error newton_msg] }) := by
  simp [adapt_body, hn, State.log]

theorem holds_after_same (I : List Event → Prop) (x : Flow × State M S V U)
    (h : I x.2.trace) : holds_after I (fun t _ => I t) x := by
  rcases x with ⟨f, s⟩
  cases f <;> exact h

/-! ## C8: the Newton tolerances -/

/-- Every Newton solve recorded in the trace was called with the tolerance of its
space. -/
def tolerances_ok (p : Params) (t : List Event) : Prop :=
  ∀ on_ref tol ok, Event.solve_newton on_ref tol ok ∈ t →
    tol = if on_ref = true then p.NEWTON_TOL_FINE else p.NEWTON_TOL_COARSE

theorem run_tolerances_ok (p : Params) (lib : Lib M S V U) (fuel n : Nat) :
    tolerances_ok p (run p lib fuel n).state.trace := by
  have h := run_holds p lib (tolerances_ok p) (fun t _ => tolerances_ok p t)
    (by
      apply holds_after_same
      rw [(init_run p lib).1]
      intro on_ref tol ok hmem
      split_ifs at hmem <;> simp at hmem <;> obtain ⟨rfl, rfl, _⟩ := hmem <;> simp)
    (by
      intro s hs
      apply holds_after_same
      by_cases hc : 1 < s.ts ∧ Int.tmod (s.ts : Int) p.UNREF_FREQ = 0
      · rw [(derefine_run p lib s hc).1]
        intro on_ref tol ok hmem
        rcases List.mem_append.mp hmem with h | h
        · exact hs _ _ _ h
        · split_ifs at h <;> simp at h <;> obtain ⟨rfl, rfl, _⟩ := h <;> simp
      · rw [derefine_skip p lib s hc]
        exact hs)
    (by
      intro s hs
      apply holds_after_same
      intro on_ref tol ok hmem
      by_cases hn : (ref_newton p lib s).2 = true
      · by_cases he : err_est_rel_total p lib s < p.ERR_STOP
        · rw [adapt_body_below p lib s hn he] at hmem
          simp [free_ref] at hmem
          rcases hmem with h | ⟨rfl, rfl, _⟩
          · exact hs _ _ _ h
          · simp
        · by_cases hd : p.NDOF_STOP ≤ ndof_after_adapt p lib s
          · rw [adapt_body_break p lib s hn he hd] at hmem
            simp at hmem
            rcases hmem with h | ⟨rfl, rfl, _⟩
            · exact hs _ _ _ h
            · simp
          · rw [adapt_body_refine p lib s hn he hd] at hmem
            simp [free_ref] at hmem
            rcases hmem with h | ⟨rfl, rfl, _⟩
            · exact hs _ _ _ h
            · simp
      · have hn2 : (ref_newton p lib s).2 = false := by simpa using hn
        rw [adapt_body_abort_eq p lib s hn2] at hmem
        simp at hmem
        rcases hmem with h | ⟨rfl, rfl, _⟩
        · exact hs _ _ _ h
        · simp)
    (by
      intro t ht on_ref tol ok hmem
      simp at hmem
      exact ht _ _ _ hmem)
    fuel n
  rcases hr : run p lib fuel n with s1 | ⟨s1, msg⟩ | s1 <;> rw [hr] at h <;> exact h

/-- C8, as stated, fails: in the source `NEWTON_TOL_COARSE = 0.01` is not larger
than `NEWTON_TOL_FINE = 0.05`. -/
theorem C8_counterexample : ¬ (NEWTON_TOL_COARSE > NEWTON_TOL_FINE) := by
  norm_num [NEWTON_TOL_COARSE, NEWTON_TOL_FINE]

/-- A property of the state that holds after the initialisation, is kept by the
derefinement block, by the body of the adaptivity loop and by the final copy, and
does not depend on `ts`, `as`, `done` and `sln_prev_time`, holds in the state in
which the run ends, however it ends. -/
theorem run_keeps (p : Params) (lib : Lib M S V U) (Inv : State M S V U → Prop)
    (h_init : Inv (init p lib).2)
    (h_deref : ∀ s, Inv s → Inv (derefine p lib s).2)
    (h_body : ∀ s, Inv s → Inv (adapt_body p lib s).2)
    (h_ctl : ∀ (s : State M S V U) ts as done u, Inv s →
      Inv { s with ts := ts, as := as, done := done, sln_prev_time := u })
    (h_copy : ∀ s : State M S V U, Inv s → Inv (s.log Event.copy_prev_time))
    (fuel n : Nat) : Inv (run p lib fuel n).state := by
  have hloop : ∀ (k : Nat) (s : State M S V U), Inv s → Inv (adapt_loop p lib k s).state := by
    intro k
    induction k with
    | zero => exact fun s hs => hs
    | succ k ih =>
      intro s hs
      have h := h_body s hs
      rcases hb : adapt_body p lib s with ⟨f, s1⟩
      rw [hb] at h
      cases f with
      | abort msg => simpa [adapt_loop, hb, Result.state] using h
      | brk => simpa [adapt_loop, hb, Result.state] using h
      | next =>
        by_cases hd : s1.done = false
        · simp only [adapt_loop, hb, hd, if_true]
          exact ih s1 h
        · simpa [adapt_loop, hb, hd, Result.state] using h
  have hstep : ∀ s : State M S V U, Inv s → Inv (time_step p lib fuel s).state := by
    intro s hs
    have h := h_deref s hs
    rcases hd : derefine p lib s with ⟨f, s0⟩
    rw [hd] at h
    have key : Inv (match adapt_loop p lib fuel (loop_entry s0) with
        | Result.finished s2 =>
          Result.finished ({ s2 with sln_prev_time := s2.ref_sln }.log Event.copy_prev_time)
        | r => r).state := by
      have hl := hloop fuel (loop_entry s0) (h_ctl s0 s0.ts 1 false s0.sln_prev_time h)
      rcases hr : adapt_loop p lib fuel (loop_entry s0) with s2 | ⟨s2, msg⟩ | s2 <;>
        rw [hr] at hl
      · exact h_copy _ (h_ctl s2 s2.ts s2.as s2.done s2.ref_sln hl)
      · exact hl
      · exact hl
    cases f with
    | abort msg => simpa [time_step, hd, Result.state] using h
    | next => simpa [time_step, hd] using key
    | brk => simpa [time_step, hd] using key
  have htime : ∀ (k : Nat) (s : State M S V U), Inv s →
      Inv (time_loop p lib fuel k s).state := by
    intro k
    induction k with
    | zero => exact fun s hs => hs
    | succ k ih =>
      intro s hs
      have h := hstep s hs
      rcases hr : time_step p lib fuel s with s1 | ⟨s1, msg⟩ | s1 <;> rw [hr] at h
      · simp only [time_loop, hr]
        exact ih { s1 with ts := s1.ts + 1 }
          (h_ctl s1 (s1.ts + 1) s1.as s1.done s1.sln_prev_time h)
      · simpa [time_loop, hr] using h
      · simpa [time_loop, hr] using h
  rcases hi : init p lib with ⟨f, s0⟩
  rw [hi] at h_init
  cases f with
  | abort msg => simpa [run, hi, Result.state] using h_init
  | next =>
    simp only [run, hi]
    exact htime n _ (h_ctl s0 1 s0.as s0.done s0.sln_prev_time h_init)
  | brk =>
    simp only [run, hi]
    exact htime n _ (h_ctl s0 1 s0.as s0.done s0.sln_prev_time h_init)

/-- The library `lib` observed at `solve_newton`.  A space carries a flag telling
whether it was made by `space->dup(ref_mesh)` (a reference space) or by the
`H1Space` constructor (the coarse space); the coefficient vector carries the list
of the `solve_newton` calls it went through, each with the flag of the space and
the tolerance the call received.  Every routine computes what it computes in
`lib`. -/
def log_newton (lib : Lib M S V U) : Lib M (S × Bool) (V × List (Bool × ℚ)) U where
  load := lib.load
  refine_all_elements := lib.refine_all_elements
  H1Space := fun m o => (lib.H1Space m o, false)
  get_num_dofs := fun m sp => lib.get_num_dofs m sp.1
  Solution_init := lib.Solution_init
  Solution_empty := lib.Solution_empty
  AVector := fun n => (lib.AVector n, [])
  project_global := fun m sp u v => (lib.project_global m sp.1 u v.1, v.2)
  project_global_sln := fun m sp u => lib.project_global_sln m sp.1 u
  solve_newton := fun m sp td u v tol mi =>
    (((lib.solve_newton m sp.1 td u v.1 tol mi).1, v.2 ++ [(sp.2, tol)]),
      (lib.solve_newton m sp.1 td u v.1 tol mi).2)
  set_coeff_vector := fun m sp v => lib.set_coeff_vector m sp.1 v.1
  set_uniform_order := fun m sp o => (lib.set_uniform_order m sp.1 o, sp.2)
  dup := fun m sp rm => (lib.dup m sp.1 rm, true)
  copy_orders := fun rm rsp m sp inc => (lib.copy_orders rm rsp.1 m sp.1 inc, rsp.2)
  calc_elem_errors := fun m sp u r => lib.calc_elem_errors m sp.1 u r
  adapt := fun m sp u r t st mr =>
    ((lib.adapt m sp.1 u r t st mr).1, ((lib.adapt m sp.1 u r t st mr).2.1, sp.2),
      (lib.adapt m sp.1 u r t st mr).2.2)

/-- The state with the flag of the space and the list of calls dropped. -/
def forget_log (s : State M (S × Bool) (V × List (Bool × ℚ)) U) : State M S V U where
  basemesh := s.basemesh
  mesh := s.mesh
  space := s.space.1
  coeff_vec := s.coeff_vec.1
  sln_prev_time := s.sln_prev_time
  sln := s.sln
  ref_sln := s.ref_sln
  ts := s.ts
  as := s.as
  done := s.done
  live := s.live
  trace := s.trace

/-- The result with the flag of the space and the list of calls dropped. -/
def forget_log_result :
    Result (State M (S × Bool) (V × List (Bool × ℚ)) U) → Result (State M S V U)
  | Result.finished s => Result.finished (forget_log s)
  | Result.aborted s msg => Result.aborted (forget_log s) msg
  | Result.out_of_fuel s => Result.out_of_fuel (forget_log s)

/-- The space flag and tolerance of a recorded Newton solve. -/
def Event.newton_call : Event → Option (Bool × ℚ)
  | Event.solve_newton on_ref tol _ => some (on_ref, tol)
  | _ => none

/-- The Newton solves recorded in a trace, in order. -/
def newton_calls (t : List Event) : List (Bool × ℚ) := t.filterMap Event.newton_call

theorem newton_calls_append (t u : List Event) :
    newton_calls (t ++ u) = newton_calls t ++ newton_calls u := by
  simp [newton_calls, List.filterMap_append]

theorem ref_init_vec_logged (lib : Lib M S V U)
    (s : State M (S × Bool) (V × List (Bool × ℚ)) U) :
    ref_init_vec (log_newton lib) s = (ref_init_vec lib (forget_log s), s.coeff_vec.2) := by
  have has : (forget_log s).as = s.as := rfl
  unfold ref_init_vec
  rw [has]
  by_cases h : s.as = 1
  · rw [if_pos h, if_pos h]
    rfl
  · rw [if_neg h, if_neg h]
    rfl

theorem ref_newton_logged (p : Params) (lib : Lib M S V U)
    (s : State M (S × Bool) (V × List (Bool × ℚ)) U) :
    ref_newton p (log_newton lib) s =
      (((ref_newton p lib (forget_log s)).1, s.coeff_vec.2 ++ [(true, p.NEWTON_TOL_FINE)]),
        (ref_newton p lib (forget_log s)).2) := by
  unfold ref_newton
  rw [ref_init_vec_logged]
  rfl

theorem new_ref_sln_logged (p : Params) (lib : Lib M S V U)
    (s : State M (S × Bool) (V × List (Bool × ℚ)) U) :
    new_ref_sln p (log_newton lib) s = new_ref_sln p lib (forget_log s) := by
  unfold new_ref_sln
  rw [ref_newton_logged]
  rfl

theorem err_est_logged (p : Params) (lib : Lib M S V U)
    (s : State M (S × Bool) (V × List (Bool × ℚ)) U) :
    err_est_rel_total p (log_newton lib) s = err_est_rel_total p lib (forget_log s) := by
  unfold err_est_rel_total
  rw [new_ref_sln_logged]
  rfl

theorem adapt_result_logged (p : Params) (lib : Lib M S V U)
    (s : State M (S × Bool) (V × List (Bool × ℚ)) U) :
    adapt_result p (log_newton lib) s =
      ((adapt_result p lib (forget_log s)).1,
        ((adapt_result p lib (forget_log s)).2.1, s.space.2),
        (adapt_result p lib (forget_log s)).2.2) := by
  unfold adapt_result
  rw [new_ref_sln_logged]
  rfl

theorem ndof_after_adapt_logged (p : Params) (lib : Lib M S V U)
    (s : State M (S × Bool) (V × List (Bool × ℚ)) U) :
    ndof_after_adapt p (log_newton lib) s = ndof_after_adapt p lib (forget_log s) := by
  unfold ndof_after_adapt
  rw [adapt_result_logged]
  rfl

theorem adapt_body_logged (p : Params) (lib : Lib M S V U)
    (s : State M (S × Bool) (V × List (Bool × ℚ)) U) :
    adapt_body p lib (forget_log s) =
      ((adapt_body p (log_newton lib) s).1, forget_log (adapt_body p (log_newton lib) s).2) := by
  have h1 := ref_newton_logged p lib s
  have h2 := err_est_logged p lib s
  have h3 := ndof_after_adapt_logged p lib s
  have h4 := adapt_result_logged p lib s
  have h5 := new_ref_sln_logged p lib s
  by_cases hn : (ref_newton p lib (forget_log s)).2 = true
  · have hn1 : (ref_newton p (log_newton lib) s).2 = true := by rw [h1]; exact hn
    by_cases he : err_est_rel_total p lib (forget_log s) < p.ERR_STOP
    · have he1 : err_est_rel_total p (log_newton lib) s < p.ERR_STOP := by rw [h2]; exact he
      rw [adapt_body_below p lib _ hn he, adapt_body_below p (log_newton lib) s hn1 he1]
      simp [forget_log, free_ref, h1, h2, h5]
    · have he1 : ¬ err_est_rel_total p (log_newton lib) s < p.ERR_STOP := by
        rw [h2]; exact he
      by_cases hd : p.NDOF_STOP ≤ ndof_after_adapt p lib (forget_log s)
      · have hd1 : p.NDOF_STOP ≤ ndof_after_adapt p (log_newton lib) s := by rw [h3]; exact hd
        rw [adapt_body_break p lib _ hn he hd,
          adapt_body_break p (log_newton lib) s hn1 he1 hd1]
        simp [forget_log, h1, h2, h3, h4, h5]
      · have hd1 : ¬ p.NDOF_STOP ≤ ndof_after_adapt p (log_newton lib) s := by
          rw [h3]; exact hd
        rw [adapt_body_refine p lib _ hn he hd,
          adapt_body_refine p (log_newton lib) s hn1 he1 hd1]
        simp only [h1, h2, h3, h4, h5]
        simp [forget_log, free_ref, log_newton]
  · have hn2 : (ref_newton p lib (forget_log s)).2 = false := by simpa using hn
    have hn3 : (ref_newton p (log_newton lib) s).2 = false := by rw [h1]; exact hn2
    rw [adapt_body_abort_eq p lib _ hn2, adapt_body_abort_eq p (log_newton lib) s hn3]
    simp [forget_log, h1]

/-- In a state of a run over `log_newton lib`: the coarse space has the flag of a
coarse space, and the calls listed in the coefficient vector are the Newton
solves recorded in the trace. -/
def calls_logged (s : State M (S × Bool) (V × List (Bool × ℚ)) U) : Prop :=
  s.space.2 = false ∧ s.coeff_vec.2 = newton_calls s.trace

theorem adapt_body_calls_logged (p : Params) (lib : Lib M S V U)
    (s : State M (S × Bool) (V × List (Bool × ℚ)) U) (hs : calls_logged s) :
    calls_logged (adapt_body p (log_newton lib) s).2 := by
  obtain ⟨hs1, hs2⟩ := hs
  have h1 := ref_newton_logged p lib s
  have h4 := adapt_result_logged p lib s
  by_cases hn : (ref_newton p (log_newton lib) s).2 = true
  · by_cases he : err_est_rel_total p (log_newton lib) s < p.ERR_STOP
    · rw [adapt_body_below p _ s hn he]
      refine ⟨hs1, ?_⟩
      simp [free_ref, h1, hs2, newton_calls_append, newton_calls, Event.newton_call]
    · by_cases hd : p.NDOF_STOP ≤ ndof_after_adapt p (log_newton lib) s
      · rw [adapt_body_break p _ s hn he hd]
        refine ⟨by simp [h4, hs1], ?_⟩
        simp [h1, hs2, newton_calls_append, newton_calls, Event.newton_call]
      · rw [adapt_body_refine p _ s hn he hd]
        refine ⟨by simp [free_ref, h4, hs1], ?_⟩
        simp [free_ref, h1, hs2, newton_calls_append, newton_calls, Event.newton_call]
  · have hn2 : (ref_newton p (log_newton lib) s).2 = false := by simpa using hn
    rw [adapt_body_abort_eq p _ s hn2]
    refine ⟨hs1, ?_⟩
    simp [h1, hs2, newton_calls_append, newton_calls, Event.newton_call]

theorem derefine_logged (p : Params) (lib : Lib M S V U)
    (s : State M (S × Bool) (V × List (Bool × ℚ)) U) :
    derefine p lib (forget_log s) =
      ((derefine p (log_newton lib) s).1, forget_log (derefine p (log_newton lib) s).2) := by
  by_cases hc : 1 < s.ts ∧ Int.tmod (s.ts : Int) p.UNREF_FREQ = 0
  · rw [derefine_state p lib (forget_log s) hc, derefine_state p (log_newton lib) s hc]
    cases hr : (lib.solve_newton s.basemesh (lib.set_uniform_order s.basemesh s.space.1 p.P_INIT)
        p.TIME_DISCR s.sln_prev_time
        (lib.project_global s.basemesh (lib.set_uniform_order s.basemesh s.space.1 p.P_INIT)
          s.ref_sln s.coeff_vec.1) p.NEWTON_TOL_COARSE p.NEWTON_MAX_ITER).2 <;>
      simp [forget_log, log_newton, hr]
  · rw [derefine_skip p lib (forget_log s) hc, derefine_skip p (log_newton lib) s hc]

theorem derefine_calls_logged (p : Params) (lib : Lib M S V U)
    (s : State M (S × Bool) (V × List (Bool × ℚ)) U) (hs : calls_logged s) :
    calls_logged (derefine p (log_newton lib) s).2 := by
  obtain ⟨hs1, hs2⟩ := hs
  by_cases hc : 1 < s.ts ∧ Int.tmod (s.ts : Int) p.UNREF_FREQ = 0
  · rw [derefine_state p (log_newton lib) s hc]
    cases hr : (lib.solve_newton s.basemesh (lib.set_uniform_order s.basemesh s.space.1 p.P_INIT)
        p.TIME_DISCR s.sln_prev_time
        (lib.project_global s.basemesh (lib.set_uniform_order s.basemesh s.space.1 p.P_INIT)
          s.ref_sln s.coeff_vec.1) p.NEWTON_TOL_COARSE p.NEWTON_MAX_ITER).2 <;>
      simp [calls_logged, log_newton, hr, hs1, hs2, newton_calls_append, newton_calls,
        Event.newton_call]
  · rw [derefine_skip p (log_newton lib) s hc]
    exact ⟨hs1, hs2⟩

theorem init_logged (p : Params) (lib : Lib M S V U) :
    init p lib = ((init p (log_newton lib)).1, forget_log (init p (log_newton lib)).2) ∧
      calls_logged (init p (log_newton lib)).2 := by
  cases hr : (init_newton p lib).2 <;>
    simp [init_newton] at hr <;>
    simp [init, forget_log, calls_logged, log_newton, hr, State.log, newton_calls,
      Event.newton_call]

theorem adapt_loop_logged (p : Params) (lib : Lib M S V U) (fuel : Nat) :
    ∀ s : State M (S × Bool) (V × List (Bool × ℚ)) U,
      adapt_loop p lib fuel (forget_log s)
        = forget_log_result (adapt_loop p (log_newton lib) fuel s) := by
  induction fuel with
  | zero => exact fun s => rfl
  | succ fuel ih =>
    intro s
    have h := adapt_body_logged p lib s
    rcases hb : adapt_body p (log_newton lib) s with ⟨f, s1⟩
    rw [hb] at h
    simp only at h
    cases f with
    | abort msg => simp [adapt_loop, hb, h, forget_log_result]
    | brk => simp [adapt_loop, hb, h, forget_log_result]
    | next =>
      have hd : (forget_log s1).done = s1.done := rfl
      by_cases hdone : s1.done = false
      · simp only [adapt_loop, hb, h, hd, hdone, if_true]
        exact ih s1
      · simp [adapt_loop, hb, h, hd, hdone, forget_log_result]

theorem time_step_logged (p : Params) (lib : Lib M S V U) (fuel : Nat)
    (s : State M (S × Bool) (V × List (Bool × ℚ)) U) :
    time_step p lib fuel (forget_log s)
      = forget_log_result (time_step p (log_newton lib) fuel s) := by
  have h := derefine_logged p lib s
  rcases hd : derefine p (log_newton lib) s with ⟨f, s0⟩
  rw [hd] at h
  simp only at h
  have hentry : loop_entry (forget_log s0) = forget_log (loop_entry s0) := rfl
  have hl := adapt_loop_logged p lib fuel (loop_entry s0)
  cases f with
  | abort msg => simp [time_step, hd, h, forget_log_result]
  | next =>
    simp only [time_step, hd, h, hentry, hl]
    rcases adapt_loop p (log_newton lib) fuel (loop_entry s0) with s2 | ⟨s2, msg⟩ | s2 <;> rfl
  | brk =>
    simp only [time_step, hd, h, hentry, hl]
    rcases adapt_loop p (log_newton lib) fuel (loop_entry s0) with s2 | ⟨s2, msg⟩ | s2 <;> rfl

theorem time_loop_logged (p : Params) (lib : Lib M S V U) (fuel n : Nat) :
    ∀ s : State M (S × Bool) (V × List (Bool × ℚ)) U,
      time_loop p lib fuel n (forget_log s)
        = forget_log_result (time_loop p (log_newton lib) fuel n s) := by
  induction n with
  | zero => exact fun s => rfl
  | succ n ih =>
    intro s
    have h := time_step_logged p lib fuel s
    rcases hr : time_step p (log_newton lib) fuel s with s1 | ⟨s1, msg⟩ | s1 <;>
      rw [hr] at h <;> simp only [time_loop, hr, h, forget_log_result]
    exact ih { s1 with ts := s1.ts + 1 }

/-- Observing the calls changes nothing else: the run over `log_newton lib` is the
run over `lib`. -/
theorem run_logged (p : Params) (lib : Lib M S V U) (fuel n : Nat) :
    forget_log_result (run p (log_newton lib) fuel n) = run p lib fuel n := by
  have h := (init_logged p lib).1
  rcases hi : init p (log_newton lib) with ⟨f, s0⟩
  rw [hi] at h
  simp only at h
  cases f with
  | abort msg => simp [run, hi, h, forget_log_result]
  | next =>
    simp only [run, hi, h]
    exact (time_loop_logged p lib fuel n { s0 with ts := 1 }).symm
  | brk =>
    simp only [run, hi, h]
    exact (time_loop_logged p lib fuel n { s0 with ts := 1 }).symm

theorem run_calls_logged (p : Params) (lib : Lib M S V U) (fuel n : Nat) :
    calls_logged (run p (log_newton lib) fuel n).state :=
  run_keeps p (log_newton lib) calls_logged (init_logged p lib).2
    (derefine_calls_logged p lib) (adapt_body_calls_logged p lib)
    (fun _ _ _ _ _ h => h)
    (fun s h => ⟨h.1, by
      simp [State.log, newton_calls_append, newton_calls, Event.newton_call]
      exact h.2⟩)
    fuel n

/-- C8 (amended): the Newton tolerance of the coarse-mesh solves is the strictly
smaller (tighter) one, `NEWTON_TOL_COARSE = 0.01 < 0.05 = NEWTON_TOL_FINE`, and in
every run every `solve_newton` call on the coarse space (lines 158 and 188)
receives `NEWTON_TOL_COARSE` and every call on a reference space (line 227)
receives `NEWTON_TOL_FINE`.  The calls are observed in the library: the run over
`log_newton lib` is the run over `lib`, the list of calls the library received
(flag of the space, tolerance argument) is the list of Newton solves recorded in
the trace, and every entry of either list has the tolerance of its space. -/
theorem C8_newton_tolerances (p : Params) (lib : Lib M S V U) (fuel n : Nat) :
    NEWTON_TOL_COARSE < NEWTON_TOL_FINE ∧
    source_params.NEWTON_TOL_COARSE = 1 / 100 ∧ source_params.NEWTON_TOL_FINE = 5 / 100 ∧
    forget_log_result (run p (log_newton lib) fuel n) = run p lib fuel n ∧
    (run p (log_newton lib) fuel n).state.coeff_vec.2
      = newton_calls (run p lib fuel n).state.trace ∧
    (∀ on_ref tol, (on_ref, tol) ∈ (run p (log_newton lib) fuel n).state.coeff_vec.2 →
      tol = if on_ref = true then p.NEWTON_TOL_FINE else p.NEWTON_TOL_COARSE) ∧
    ∀ on_ref tol ok, Event.solve_newton on_ref tol ok ∈ (run p lib fuel n).state.trace →
      tol = if on_ref = true then p.NEWTON_TOL_FINE else p.NEWTON_TOL_COARSE := by
  have hsim := run_logged p lib fuel n
  have hlog := (run_calls_logged p lib fuel n).2
  have htrace : (run p (log_newton lib) fuel n).state.trace = (run p lib fuel n).state.trace := by
    rw [← hsim]
    rcases run p (log_newton lib) fuel n with s1 | ⟨s1, msg⟩ | s1 <;> rfl
  rw [htrace] at hlog
  refine ⟨by norm_num [NEWTON_TOL_COARSE, NEWTON_TOL_FINE], rfl, rfl, hsim, hlog, ?_,
    run_tolerances_ok p lib fuel n⟩
  intro on_ref tol hmem
  rw [hlog] at hmem
  simp only [newton_calls, List.mem_filterMap] at hmem
  obtain ⟨e, he, hcall⟩ := hmem
  cases e <;> simp [Event.newton_call] at hcall
  obtain ⟨rfl, rfl⟩ := hcall
  exact run_tolerances_ok p lib fuel n _ _ _ he

theorem C8_newton_tolerances_witness :
    (true, NEWTON_TOL_FINE)
      ∈ (run source_params (log_newton lib_small_error) 1 1).state.coeff_vec.2 ∧
    Event.solve_newton true NEWTON_TOL_FINE true
      ∈ (run source_params lib_small_error 1 1).state.trace ∧
    (run source_params (log_newton lib_small_error) 1 1).state.coeff_vec.2
      = [(false, NEWTON_TOL_COARSE), (true, NEWTON_TOL_FINE)] ∧
    NEWTON_TOL_COARSE < NEWTON_TOL_FINE ∧
    NEWTON_TOL_FINE = (if true = true then source_params.NEWTON_TOL_FINE
      else source_params.NEWTON_TOL_COARSE) ∧
    NEWTON_TOL_FINE = (if true = true then source_params.NEWTON_TOL_FINE
      else source_params.NEWTON_TOL_COARSE) := by
  have hlog : (run source_params (log_newton lib_small_error) 1 1).state.coeff_vec.2
      = [(false, NEWTON_TOL_COARSE), (true, NEWTON_TOL_FINE)] := by
    norm_num [run, init, time_loop, time_step, derefine, deref_cond, loop_entry,
      adapt_loop, adapt_body, ref_newton, ref_init_vec, ref_mesh, ref_space, new_ref_sln,
      err_est_rel_total, free_ref, State.log, Result.state, log_newton, lib_small_error,
      test_lib, source_params, ERR_STOP, INIT_REF_NUM]
  have hcall : (true, NEWTON_TOL_FINE)
      ∈ (run source_params (log_newton lib_small_error) 1 1).state.coeff_vec.2 := by
    rw [hlog]
    simp
  have hmem : Event.solve_newton true NEWTON_TOL_FINE true
      ∈ (run source_params lib_small_error 1 1).state.trace := by
    norm_num [run, init, time_loop, time_step, derefine, deref_cond, loop_entry,
      adapt_loop, adapt_body, ref_newton, ref_init_vec, ref_mesh, ref_space, new_ref_sln,
      err_est_rel_total, free_ref, State.log, Result.state, lib_small_error, test_lib,
      source_params, ERR_STOP, INIT_REF_NUM]
  exact ⟨hcall, hmem, hlog, (C8_newton_tolerances source_params lib_small_error 1 1).1,
    (C8_newton_tolerances source_params lib_small_error 1 1).2.2.2.2.2.1 true
      NEWTON_TOL_FINE hcall,
    (C8_newton_tolerances source_params lib_small_error 1 1).2.2.2.2.2.2 true
      NEWTON_TOL_FINE true hmem⟩

/-! ## C7: a Newton solve that does not converge -/

/-- No failed Newton solve is recorded in the trace. -/
def no_failure (t : List Event) : Prop :=
  ∀ on_ref tol, Event.solve_newton on_ref tol false ∉ t

/-- The trace ends with a failed Newton solve followed by `error(newton_msg)`, and
records no other failed solve; `msg` is the text passed to `error`. -/
def failed_last (t : List Event) (msg : String) : Prop :=
  msg = newton_msg ∧ ∃ t0 on_ref tol, no_failure t0 ∧
    t = t0 ++ [Event.solve_newton on_ref tol false, Event.error newton_msg]

theorem run_failure (p : Params) (lib : Lib M S V U) (fuel n : Nat) :
    result_holds no_failure failed_last (run p lib fuel n) := by
  apply run_holds
  · have h := init_run p lib
    rcases hi : init p lib with ⟨f, s0⟩
    rw [hi] at h
    obtain ⟨h1, h2⟩ := h
    simp only at h1 h2
    cases hr : (init_newton p lib).2
    · rw [hr] at h1 h2
      simp only [Bool.false_eq_true, if_false] at h1 h2
      subst h2
      exact ⟨rfl, [Event.mesh_copy_base, Event.project_coarse_vec false], false,
        p.NEWTON_TOL_COARSE, by intro a b hmem; simp at hmem, by rw [h1]; rfl⟩
    · rw [hr] at h1 h2
      simp only [if_true] at h1 h2
      subst h2
      show no_failure s0.trace
      rw [h1]
      intro a b hmem
      simp at hmem
  · intro s hs
    by_cases hc : 1 < s.ts ∧ Int.tmod (s.ts : Int) p.UNREF_FREQ = 0
    · obtain ⟨h1, h2, _⟩ := derefine_run p lib s hc
      rcases hd : derefine p lib s with ⟨f, s1⟩
      rw [hd] at h1 h2
      simp only at h1 h2
      cases hr : (deref_newton p lib s).2
      · rw [hr] at h1 h2
        simp only [Bool.false_eq_true, if_false] at h1 h2
        subst h2
        refine ⟨rfl, s.trace ++ [Event.mesh_copy_base, Event.set_uniform_order p.P_INIT,
          Event.project_coarse_vec true], false, p.NEWTON_TOL_COARSE, ?_, by rw [h1]; simp⟩
        intro a b hmem
        simp at hmem
        exact hs a b hmem
      · rw [hr] at h1 h2
        simp only [if_true] at h1 h2
        subst h2
        show no_failure s1.trace
        rw [h1]
        intro a b hmem
        simp at hmem
        exact hs a b hmem
    · rw [derefine_skip p lib s hc]
      exact hs
  · intro s hs
    by_cases hn : (ref_newton p lib s).2 = true
    · by_cases he : err_est_rel_total p lib s < p.ERR_STOP
      · rw [adapt_body_below p lib s hn he]
        intro a b hmem
        simp [free_ref] at hmem
        exact hs a b hmem
      · by_cases hd : p.NDOF_STOP ≤ ndof_after_adapt p lib s
        · rw [adapt_body_break p lib s hn he hd]
          intro a b hmem
          simp at hmem
          exact hs a b hmem
        · rw [adapt_body_refine p lib s hn he hd]
          intro a b hmem
          simp [free_ref] at hmem
          exact hs a b hmem
    · have hn2 : (ref_newton p lib s).2 = false := by simpa using hn
      rw [adapt_body_abort_eq p lib s hn2]
      refine ⟨rfl, s.trace ++ [Event.info_step s.ts s.as, Event.new_ref s.ts s.as,
        Event.project_ref_vec (decide (s.as = 1))], true, p.NEWTON_TOL_FINE, ?_, by simp⟩
      intro a b hmem
      simp at hmem
      exact hs a b hmem
  · intro t ht a b hmem
    simp at hmem
    exact ht a b hmem

theorem failed_last_unique (t0 pre post : List Event) (a b : Bool) (x y : ℚ)
    (h0 : no_failure t0)
    (h : t0 ++ [Event.solve_newton a x false, Event.error newton_msg]
      = pre ++ Event.solve_newton b y false :: post) :
    post = [Event.error newton_msg] := by
  rcases List.append_eq_append_iff.mp h with ⟨c, h1, h2⟩ | ⟨c, h1, h2⟩
  · cases c with
    | nil =>
      have h3 := h2.symm
      simp at h3
      exact h3.2
    | cons e c =>
      cases c with
      | nil => simp at h2
      | cons e2 c =>
        cases c with
        | nil => simp at h2
        | cons e3 c => simp at h2
  · cases c with
    | nil =>
      simp at h2
      exact h2.2
    | cons e c =>
      simp only [List.cons_append, List.cons.injEq] at h2
      exact absurd (by rw [h1, ← h2.1]; simp) (h0 b y)

/-- C7 (amended): whenever a Newton solve of the run fails to converge (the initial
coarse solve, the solve after derefinement, or a reference solve of the
adaptivity loop), the only call executed after it is `error` with the fixed text
"Newton's method did not converge.", and the run ends aborted with that text: no
further time step or adaptivity iteration is executed.  The text carries neither
the time step nor the adaptivity step. -/
theorem C7_newton_failure_aborts (p : Params) (lib : Lib M S V U) (fuel n : Nat)
    (pre post : List Event) (on_ref : Bool) (tol : ℚ)
    (h : (run p lib fuel n).state.trace = pre ++ Event.solve_newton on_ref tol false :: post) :
    post = [Event.error newton_msg] ∧
      ∃ s, run p lib fuel n = Result.aborted s newton_msg := by
  have hr := run_failure p lib fuel n
  have hmem : Event.solve_newton on_ref tol false ∈ (run p lib fuel n).state.trace := by
    rw [h]
    simp
  rcases hrun : run p lib fuel n with s1 | ⟨s1, msg⟩ | s1 <;> rw [hrun] at hr h hmem
  · exact absurd hmem (hr on_ref tol)
  · obtain ⟨hmsg, t0, a, x, h0, ht⟩ := hr
    subst hmsg
    simp only [Result.state] at h
    rw [ht] at h
    exact ⟨failed_last_unique t0 pre post a on_ref x tol h0 h, s1, rfl⟩
  · exact absurd hmem (hr on_ref tol)

/-- Newton fails on every reference space: the first failure is at time step 1,
adaptivity step 1. -/
def lib_fail_step_1 : Lib Nat (Int × Bool) Nat Nat :=
  test_lib 0 false 0 (fun is_ref _ => !is_ref)

/-- Newton fails on a reference space once the previous-time solution is no longer
the initial one: the first failure is at time step 2, adaptivity step 1. -/
def lib_fail_step_2 : Lib Nat (Int × Bool) Nat Nat :=
  test_lib 0 false 0 (fun is_ref prev => !is_ref || prev == 0)

/-- Newton fails on the coarse space once the previous-time solution is no longer
the initial one: the first failure is in the derefinement block of time step 2. -/
def lib_fail_deref : Lib Nat (Int × Bool) Nat Nat :=
  test_lib 0 false 0 (fun is_ref prev => is_ref || prev == 0)

/-- C7, as stated, fails in its last part: three runs whose Newton solves fail at
time step 1 / adaptivity step 1, at time step 2 / adaptivity step 1, and in the
derefinement block of time step 2 (before the `info` line of that step) all end
with the same report, the text `newton_msg`, which names no index. -/
theorem C7_counterexample :
    ∃ sA sB sC, run source_params lib_fail_step_1 1 2 = Result.aborted sA newton_msg ∧
      run source_params lib_fail_step_2 1 2 = Result.aborted sB newton_msg ∧
      run source_params lib_fail_deref 1 2 = Result.aborted sC newton_msg ∧
      sA.ts = 1 ∧ sA.as = 1 ∧ sB.ts = 2 ∧ sB.as = 1 ∧ sC.ts = 2 ∧
      Event.info_step 2 1 ∉ sC.trace := by
  refine ⟨(run source_params lib_fail_step_1 1 2).state,
    (run source_params lib_fail_step_2 1 2).state,
    (run source_params lib_fail_deref 1 2).state, ?_, ?_, ?_, ?_, ?_, ?_, ?_, ?_, ?_⟩
  all_goals norm_num [run, init, time_loop, time_step, derefine, deref_cond, loop_entry,
    adapt_loop, adapt_body, ref_newton, ref_init_vec, ref_mesh, ref_space, new_ref_sln,
    err_est_rel_total, free_ref, State.log, Result.state, lib_fail_step_1, lib_fail_step_2,
    lib_fail_deref, test_lib, source_params, ERR_STOP, INIT_REF_NUM, UNREF_FREQ]
  simp

theorem C7_newton_failure_aborts_witness :
    (run source_params lib_fail_step_1 1 2).state.trace =
      [Event.mesh_copy_base, Event.project_coarse_vec false,
        Event.solve_newton false source_params.NEWTON_TOL_COARSE true, Event.set_sln,
        Event.info_step 1 1, Event.new_ref 1 1, Event.project_ref_vec true] ++
      Event.solve_newton true source_params.NEWTON_TOL_FINE false ::
        [Event.error newton_msg] ∧
    ([Event.error newton_msg] = [Event.error newton_msg] ∧
      ∃ s, run source_params lib_fail_step_1 1 2 = Result.aborted s newton_msg) :=
  have h : (run source_params lib_fail_step_1 1 2).state.trace =
      [Event.mesh_copy_base, Event.project_coarse_vec false,
        Event.solve_newton false source_params.NEWTON_TOL_COARSE true, Event.set_sln,
        Event.info_step 1 1, Event.new_ref 1 1, Event.project_ref_vec true] ++
      Event.solve_newton true source_params.NEWTON_TOL_FINE false ::
        [Event.error newton_msg] := by
    norm_num [run, init, time_loop, time_step, derefine, deref_cond, loop_entry,
      adapt_loop, adapt_body, ref_newton, ref_init_vec, ref_mesh, ref_space, new_ref_sln,
      err_est_rel_total, free_ref, State.log, Result.state, lib_fail_step_1, test_lib,
      source_params, ERR_STOP, INIT_REF_NUM, UNREF_FREQ]
  ⟨h, C7_newton_failure_aborts source_params lib_fail_step_1 1 2 _ _ true
    source_params.NEWTON_TOL_FINE h⟩

/-! ## C9: the previous-time solution after a time step -/

theorem adapt_body_ref_sln (p : Params) (lib : Lib M S V U) (s : State M S V U)
    (hn : (ref_newton p lib s).2 = true) :
    (adapt_body p lib s).2.ref_sln = new_ref_sln p lib s := by
  by_cases he : err_est_rel_total p lib s < p.ERR_STOP
  · rw [adapt_body_below p lib s hn he]
    rfl
  · by_cases hd : p.NDOF_STOP ≤ ndof_after_adapt p lib s
    · rw [adapt_body_break p lib s hn he hd]
    · rw [adapt_body_refine p lib s hn he hd]
      rfl

/-- A loop that is left normally is left at an iteration `k + 1` whose Newton solve
converged and at which an exit test holds, no exit test holding before; the
state at exit is the one produced by the body of that iteration. -/
theorem adapt_loop_finished (p : Params) (lib : Lib M S V U) (fuel : Nat) :
    ∀ s s1 : State M S V U, adapt_loop p lib fuel s = Result.finished s1 →
      ∃ k, k < fuel ∧ (ref_newton p lib (iter_state p lib s k)).2 = true ∧
        stops p lib (iter_state p lib s k) ∧
        (∀ j, j < k → ¬ stops p lib (iter_state p lib s j)) ∧
        s1 = (adapt_body p lib (iter_state p lib s k)).2 := by
  induction fuel with
  | zero =>
    intro s s1 h
    simp [adapt_loop] at h
  | succ fuel ih =>
    intro s s1 h
    by_cases hn : (ref_newton p lib s).2 = true
    · by_cases hs : stops p lib s
      · rw [(adapt_loop_of_stops p lib s fuel hn hs).1] at h
        simp only [Result.finished.injEq] at h
        exact ⟨0, Nat.succ_pos _, hn, hs, fun j hj => absurd hj (Nat.not_lt_zero j), h.symm⟩
      · rw [adapt_loop_of_not_stops p lib s fuel hn hs] at h
        obtain ⟨k, h1, h2, h3, h4, h5⟩ := ih _ _ h
        refine ⟨k + 1, Nat.succ_lt_succ h1, ?_, ?_, ?_, ?_⟩
        · rw [iter_state_succ]; exact h2
        · rw [iter_state_succ]; exact h3
        · intro j hj
          cases j with
          | zero => exact hs
          | succ j =>
            rw [iter_state_succ]
            exact h4 j (Nat.lt_of_succ_lt_succ hj)
        · rw [iter_state_succ]; exact h5
    · have hn2 : (ref_newton p lib s).2 = false := by simpa using hn
      simp [adapt_loop, adapt_body_abort_eq p lib s hn2] at h

/-- A loop that is left normally is left in some iteration `k + 1`: with `k`
iterations it is still running, in the state `sk` in which that iteration
starts, and that iteration alone, run from `sk`, leaves the loop in the same
final state. -/
theorem adapt_loop_final (p : Params) (lib : Lib M S V U) (fuel : Nat) :
    ∀ s s1 : State M S V U, adapt_loop p lib fuel s = Result.finished s1 →
      ∃ k sk, k < fuel ∧ adapt_loop p lib k s = Result.out_of_fuel sk ∧
        adapt_loop p lib (k + 1) s = Result.finished s1 ∧
        adapt_loop p lib 1 sk = Result.finished s1 := by
  induction fuel with
  | zero =>
    intro s s1 h
    simp [adapt_loop] at h
  | succ fuel ih =>
    intro s s1 h
    rcases hb : adapt_body p lib s with ⟨f, s2⟩
    cases f with
    | abort msg => simp [adapt_loop, hb] at h
    | brk =>
      have h1 : adapt_loop p lib 1 s = Result.finished s1 := by
        simpa [adapt_loop, hb] using h
      exact ⟨0, s, Nat.succ_pos _, rfl, h1, h1⟩
    | next =>
      by_cases hd : s2.done = false
      · have hstep : ∀ m, adapt_loop p lib (m + 1) s = adapt_loop p lib m s2 := by
          intro m
          simp [adapt_loop, hb, hd]
        rw [hstep] at h
        obtain ⟨k, sk, hk, h1, h2, h3⟩ := ih s2 s1 h
        exact ⟨k + 1, sk, Nat.succ_lt_succ hk, by rw [hstep]; exact h1,
          by rw [hstep]; exact h2, h3⟩
      · have h1 : adapt_loop p lib 1 s = Result.finished s1 := by
          simpa [adapt_loop, hb, hd] using h
        exact ⟨0, s, Nat.succ_pos _, rfl, h1, h1⟩

/-- An iteration that leaves the loop normally: its Newton solve converged, one of
the exit tests holds, and the reference solution it leaves is the one bound at
line 232. -/
theorem adapt_loop_one (p : Params) (lib : Lib M S V U) (s s1 : State M S V U)
    (h : adapt_loop p lib 1 s = Result.finished s1) :
    (ref_newton p lib s).2 = true ∧ stops p lib s ∧ s1.ref_sln = new_ref_sln p lib s := by
  by_cases hn : (ref_newton p lib s).2 = true
  · by_cases hs : stops p lib s
    · rw [(adapt_loop_of_stops p lib s 0 hn hs).1] at h
      simp only [Result.finished.injEq] at h
      subst h
      exact ⟨hn, hs, adapt_body_ref_sln p lib s hn⟩
    · rw [adapt_loop_of_not_stops p lib s 0 hn hs] at h
      simp [adapt_loop] at h
  · have hn2 : (ref_newton p lib s).2 = false := by simpa using hn
    simp [adapt_loop, adapt_body_abort_eq p lib s hn2] at h

/-- C9: when a time step completes, its adaptivity loop was left in some iteration
`k + 1` (after `k` iterations it was still running, in state `sk`; iteration
`k + 1`, started in `sk`, left it in state `s2`), whichever exit test ended it:
error below `ERR_STOP`, `hp.adapt` returning `true`, or the DOF ceiling.  With
`rm`, `rs` the reference mesh and space built in that final iteration (lines
205-210) and `nw` the result of its Newton solve with `NEWTON_TOL_FINE` (lines
213-228), which converged, the previous-time solution after the step is
`set_coeff_vector(rs, nw)`, the reference solution bound at line 232 of that
final iteration, which is also the value of `ref_sln`. -/
theorem C9_previous_time_is_last_reference (p : Params) (lib : Lib M S V U) (fuel : Nat)
    (s s1 : State M S V U) (h : time_step p lib fuel s = Result.finished s1) :
    ∃ k sk s2 rm rs nw, k < fuel ∧
      adapt_loop p lib k (loop_entry (derefine p lib s).2) = Result.out_of_fuel sk ∧
      adapt_loop p lib (k + 1) (loop_entry (derefine p lib s).2) = Result.finished s2 ∧
      adapt_loop p lib 1 sk = Result.finished s2 ∧
      s1 = ({ s2 with sln_prev_time := s2.ref_sln }.log Event.copy_prev_time) ∧
      rm = lib.refine_all_elements sk.mesh ∧
      rs = lib.copy_orders rm (lib.dup sk.mesh sk.space rm) sk.mesh sk.space 1 ∧
      nw = lib.solve_newton rm rs p.TIME_DISCR sk.sln_prev_time
        (if sk.as = 1 then lib.project_global rm rs sk.sln sk.coeff_vec
          else lib.project_global rm rs sk.ref_sln sk.coeff_vec)
        p.NEWTON_TOL_FINE p.NEWTON_MAX_ITER ∧
      nw.2 = true ∧
      (lib.calc_elem_errors sk.mesh sk.space sk.sln (lib.set_coeff_vector rm rs nw.1) * 100
          < p.ERR_STOP ∨
        (lib.adapt sk.mesh sk.space sk.sln (lib.set_coeff_vector rm rs nw.1)
          p.THRESHOLD p.STRATEGY p.MESH_REGULARITY).2.2 = true ∨
        p.NDOF_STOP ≤ lib.get_num_dofs
          (lib.adapt sk.mesh sk.space sk.sln (lib.set_coeff_vector rm rs nw.1)
            p.THRESHOLD p.STRATEGY p.MESH_REGULARITY).1
          (lib.adapt sk.mesh sk.space sk.sln (lib.set_coeff_vector rm rs nw.1)
            p.THRESHOLD p.STRATEGY p.MESH_REGULARITY).2.1) ∧
      s1.sln_prev_time = lib.set_coeff_vector rm rs nw.1 ∧
      s1.ref_sln = lib.set_coeff_vector rm rs nw.1 := by
  rcases hd : derefine p lib s with ⟨f, s0⟩
  have key : ∀ s2, adapt_loop p lib fuel (loop_entry s0) = Result.finished s2 →
      s1 = ({ s2 with sln_prev_time := s2.ref_sln }.log Event.copy_prev_time) →
      ∃ k sk s2 rm rs nw, k < fuel ∧
        adapt_loop p lib k (loop_entry s0) = Result.out_of_fuel sk ∧
        adapt_loop p lib (k + 1) (loop_entry s0) = Result.finished s2 ∧
        adapt_loop p lib 1 sk = Result.finished s2 ∧
        s1 = ({ s2 with sln_prev_time := s2.ref_sln }.log Event.copy_prev_time) ∧
        rm = lib.refine_all_elements sk.mesh ∧
        rs = lib.copy_orders rm (lib.dup sk.mesh sk.space rm) sk.mesh sk.space 1 ∧
        nw = lib.solve_newton rm rs p.TIME_DISCR sk.sln_prev_time
          (if sk.as = 1 then lib.project_global rm rs sk.sln sk.coeff_vec
            else lib.project_global rm rs sk.ref_sln sk.coeff_vec)
          p.NEWTON_TOL_FINE p.NEWTON_MAX_ITER ∧
        nw.2 = true ∧
        (lib.calc_elem_errors sk.mesh sk.space sk.sln (lib.set_coeff_vector rm rs nw.1) * 100
            < p.ERR_STOP ∨
          (lib.adapt sk.mesh sk.space sk.sln (lib.set_coeff_vector rm rs nw.1)
            p.THRESHOLD p.STRATEGY p.MESH_REGULARITY).2.2 = true ∨
          p.NDOF_STOP ≤ lib.get_num_dofs
            (lib.adapt sk.mesh sk.space sk.sln (lib.set_coeff_vector rm rs nw.1)
              p.THRESHOLD p.STRATEGY p.MESH_REGULARITY).1
            (lib.adapt sk.mesh sk.space sk.sln (lib.set_coeff_vector rm rs nw.1)
              p.THRESHOLD p.STRATEGY p.MESH_REGULARITY).2.1) ∧
        s1.sln_prev_time = lib.set_coeff_vector rm rs nw.1 ∧
        s1.ref_sln = lib.set_coeff_vector rm rs nw.1 := by
    intro s2 hl hs1
    obtain ⟨k, sk, hk, h1, h2, h3⟩ := adapt_loop_final p lib fuel _ _ hl
    obtain ⟨hn, hstops, href⟩ := adapt_loop_one p lib sk s2 h3
    have h6 : s1.sln_prev_time = new_ref_sln p lib sk ∧ s1.ref_sln = new_ref_sln p lib sk := by
      rw [hs1]
      exact ⟨href, href⟩
    exact ⟨k, sk, s2, _, _, _, hk, h1, h2, h3, hs1, rfl, rfl, rfl, hn, hstops, h6.1, h6.2⟩
  cases f with
  | abort msg => simp [time_step, hd] at h
  | next =>
    rcases hl : adapt_loop p lib fuel (loop_entry s0) with s2 | ⟨s2, msg⟩ | s2 <;>
      simp [time_step, hd, hl] at h
    exact key s2 hl h.symm
  | brk =>
    rcases hl : adapt_loop p lib fuel (loop_entry s0) with s2 | ⟨s2, msg⟩ | s2 <;>
      simp [time_step, hd, hl] at h
    exact key s2 hl h.symm

/-- `hp.adapt` adds 60000 DOFs at once: the ceiling of the source is reached in the
first iteration (the estimator returns 1000 percent, Newton converges). -/
def lib_big_refinement : Lib Nat (Int × Bool) Nat Nat :=
  test_lib 10 false 60000 (fun _ _ => true)

theorem step_exit_by_error :
    time_step source_params lib_small_error 1 test_state
      = Result.finished (time_step source_params lib_small_error 1 test_state).state := by
  norm_num [time_step, derefine, deref_cond, loop_entry, adapt_loop, adapt_body, ref_newton,
    err_est_rel_total, free_ref, State.log, Result.state, lib_small_error, test_lib,
    test_state, source_params, ERR_STOP]

theorem step_exit_by_adapt :
    time_step source_params lib_saturated 1 test_state
      = Result.finished (time_step source_params lib_saturated 1 test_state).state := by
  norm_num [time_step, derefine, deref_cond, loop_entry, adapt_loop, adapt_body, ref_newton,
    err_est_rel_total, adapt_result, ndof_after_adapt, free_ref, State.log, Result.state,
    lib_saturated, test_lib, test_state, source_params, ERR_STOP, NDOF_STOP]

theorem step_exit_by_ceiling :
    time_step source_params lib_big_refinement 1 test_state
      = Result.finished (time_step source_params lib_big_refinement 1 test_state).state := by
  norm_num [time_step, derefine, deref_cond, loop_entry, adapt_loop, adapt_body, ref_newton,
    err_est_rel_total, adapt_result, ndof_after_adapt, free_ref, State.log, Result.state,
    lib_big_refinement, test_lib, test_state, source_params, ERR_STOP, NDOF_STOP]

theorem step_two_iterations :
    time_step source_params lib_growing 2 test_state
      = Result.finished (time_step source_params lib_growing 2 test_state).state := by
  norm_num [time_step, derefine, deref_cond, loop_entry, adapt_loop, adapt_body, ref_newton,
    err_est_rel_total, adapt_result, ndof_after_adapt, free_ref, State.log, Result.state,
    lib_growing, test_lib, test_state, source_params, ERR_STOP, NDOF_STOP]

theorem C9_previous_time_is_last_reference_witness :
    (time_step source_params lib_small_error 1 test_state
        = Result.finished (time_step source_params lib_small_error 1 test_state).state ∧
      (time_step source_params lib_small_error 1 test_state).state.sln_prev_time = 6 ∧
      ∃ k sk rm rs, k < 1 ∧
        adapt_loop source_params lib_small_error k
          (loop_entry (derefine source_params lib_small_error test_state).2)
          = Result.out_of_fuel sk ∧
        (time_step source_params lib_small_error 1 test_state).state.sln_prev_time
          = lib_small_error.set_coeff_vector rm rs (sk.sln + 1 + 1)) ∧
    (time_step source_params lib_saturated 1 test_state
        = Result.finished (time_step source_params lib_saturated 1 test_state).state ∧
      (time_step source_params lib_saturated 1 test_state).state.sln_prev_time = 6 ∧
      ∃ k sk rm rs, k < 1 ∧
        adapt_loop source_params lib_saturated k
          (loop_entry (derefine source_params lib_saturated test_state).2)
          = Result.out_of_fuel sk ∧
        (time_step source_params lib_saturated 1 test_state).state.sln_prev_time
          = lib_saturated.set_coeff_vector rm rs (sk.sln + 1 + 1)) ∧
    (time_step source_params lib_big_refinement 1 test_state
        = Result.finished (time_step source_params lib_big_refinement 1 test_state).state ∧
      (time_step source_params lib_big_refinement 1 test_state).state.sln_prev_time = 6 ∧
      ∃ k sk rm rs, k < 1 ∧
        adapt_loop source_params lib_big_refinement k
          (loop_entry (derefine source_params lib_big_refinement test_state).2)
          = Result.out_of_fuel sk ∧
        (time_step source_params lib_big_refinement 1 test_state).state.sln_prev_time
          = lib_big_refinement.set_coeff_vector rm rs (sk.sln + 1 + 1)) ∧
    (time_step source_params lib_growing 2 test_state
        = Result.finished (time_step source_params lib_growing 2 test_state).state ∧
      (∃ sk, adapt_loop source_params lib_growing 1 (loop_entry test_state)
          = Result.out_of_fuel sk ∧ sk.ref_sln = 6 ∧ sk.as = 2) ∧
      (time_step source_params lib_growing 2 test_state).state.sln_prev_time = 9 ∧
      ∃ k sk s2, k < 2 ∧
        adapt_loop source_params lib_growing k
          (loop_entry (derefine source_params lib_growing test_state).2)
          = Result.out_of_fuel sk ∧
        adapt_loop source_params lib_growing (k + 1)
          (loop_entry (derefine source_params lib_growing test_state).2)
          = Result.finished s2 ∧
        (time_step source_params lib_growing 2 test_state).state.ref_sln
          = (time_step source_params lib_growing 2 test_state).state.sln_prev_time) := by
  refine ⟨⟨step_exit_by_error, ?_, ?_⟩, ⟨step_exit_by_adapt, ?_, ?_⟩,
    ⟨step_exit_by_ceiling, ?_, ?_⟩, ⟨step_two_iterations, ?_, ?_, ?_⟩⟩
  · norm_num [time_step, derefine, deref_cond, loop_entry, adapt_loop, adapt_body,
      ref_newton, ref_init_vec, new_ref_sln, err_est_rel_total, free_ref, State.log,
      Result.state, lib_small_error, test_lib, test_state, source_params, ERR_STOP]
  · obtain ⟨k, sk, s2, rm, rs, nw, hk, h1, _, _, _, _, _, hnw, _, _, h6, _⟩ :=
      C9_previous_time_is_last_reference source_params lib_small_error 1 test_state _
        step_exit_by_error
    have hk0 : k = 0 := by omega
    subst hk0
    simp only [adapt_loop, Result.out_of_fuel.injEq] at h1
    refine ⟨0, sk, rm, rs, hk, by simp only [adapt_loop, h1], ?_⟩
    rw [h6, hnw, ← h1]
    norm_num [derefine, deref_cond, loop_entry, lib_small_error, test_lib, test_state]
  · norm_num [time_step, derefine, deref_cond, loop_entry, adapt_loop, adapt_body,
      ref_newton, ref_init_vec, new_ref_sln, err_est_rel_total, adapt_result,
      ndof_after_adapt, free_ref, State.log, Result.state, lib_saturated, test_lib,
      test_state, source_params, ERR_STOP, NDOF_STOP]
  · obtain ⟨k, sk, s2, rm, rs, nw, hk, h1, _, _, _, _, _, hnw, _, _, h6, _⟩ :=
      C9_previous_time_is_last_reference source_params lib_saturated 1 test_state _
        step_exit_by_adapt
    have hk0 : k = 0 := by omega
    subst hk0
    simp only [adapt_loop, Result.out_of_fuel.injEq] at h1
    refine ⟨0, sk, rm, rs, hk, by simp only [adapt_loop, h1], ?_⟩
    rw [h6, hnw, ← h1]
    norm_num [derefine, deref_cond, loop_entry, lib_saturated, test_lib, test_state]
  · norm_num [time_step, derefine, deref_cond, loop_entry, adapt_loop, adapt_body,
      ref_newton, ref_init_vec, new_ref_sln, err_est_rel_total, adapt_result,
      ndof_after_adapt, free_ref, State.log, Result.state, lib_big_refinement, test_lib,
      test_state, source_params, ERR_STOP, NDOF_STOP]
  · obtain ⟨k, sk, s2, rm, rs, nw, hk, h1, _, _, _, _, _, hnw, _, _, h6, _⟩ :=
      C9_previous_time_is_last_reference source_params lib_big_refinement 1 test_state _
        step_exit_by_ceiling
    have hk0 : k = 0 := by omega
    subst hk0
    simp only [adapt_loop, Result.out_of_fuel.injEq] at h1
    refine ⟨0, sk, rm, rs, hk, by simp only [adapt_loop, h1], ?_⟩
    rw [h6, hnw, ← h1]
    norm_num [derefine, deref_cond, loop_entry, lib_big_refinement, test_lib, test_state]
  · refine ⟨(adapt_loop source_params lib_growing 1 (loop_entry test_state)).state, ?_, ?_, ?_⟩
    all_goals norm_num [loop_entry, adapt_loop, adapt_body, ref_newton, ref_init_vec,
      new_ref_sln, err_est_rel_total, adapt_result, ndof_after_adapt, free_ref, State.log,
      Result.state, lib_growing, test_lib, test_state, source_params, ERR_STOP, NDOF_STOP]
  · norm_num [time_step, derefine, deref_cond, loop_entry, adapt_loop, adapt_body,
      ref_newton, ref_init_vec, new_ref_sln, err_est_rel_total, adapt_result,
      ndof_after_adapt, free_ref, State.log, Result.state, lib_growing, test_lib,
      test_state, source_params, ERR_STOP, NDOF_STOP]
  · obtain ⟨k, sk, s2, rm, rs, nw, hk, h1, h2, _, _, _, _, _, _, _, h6, h7⟩ :=
      C9_previous_time_is_last_reference source_params lib_growing 2 test_state _
        step_two_iterations
    exact ⟨k, sk, s2, hk, h1, h2, by rw [h6, h7]⟩

/-! ## C10: release of the reference mesh and space -/

/-- C10 fails on the `break` of line 253: with the source parameters, an error of
1000 percent and a refinement that brings the coarse space from 200 to 60200
DOFs, the loop is left in its first iteration with the reference mesh and space
of that iteration still live; `ref_space->free()` and `ref_mesh->free()` have not
been called. -/
theorem C10_break_skips_free :
    ∃ s1, adapt_loop source_params lib_big_refinement 1 test_state = Result.finished s1 ∧
      s1.done = true ∧ s1.live = [(1, 1)] ∧
      Event.new_ref 1 1 ∈ s1.trace ∧ Event.free_ref 1 1 ∉ s1.trace := by
  have hn : (ref_newton source_params lib_big_refinement test_state).2 = true := by
    simp [ref_newton, lib_big_refinement, test_lib]
  have he : ¬ err_est_rel_total source_params lib_big_refinement test_state
      < source_params.ERR_STOP := by
    norm_num [err_est_rel_total, lib_big_refinement, test_lib, source_params, ERR_STOP]
  have hd : source_params.NDOF_STOP
      ≤ ndof_after_adapt source_params lib_big_refinement test_state := by
    norm_num [ndof_after_adapt, adapt_result, lib_big_refinement, test_lib, source_params,
      NDOF_STOP, test_state]
  refine ⟨_, by
    rw [adapt_loop, adapt_body_break source_params lib_big_refinement test_state hn he hd],
    rfl, ?_, ?_, ?_⟩
  · simp [test_state]
  · simp [test_state]
  · simp [test_state]

/-- On the three other ways an iteration ends (continuing, error below `ERR_STOP`,
`hp.adapt` returning `true`) the body runs to its end and has released what it
created: the reference meshes and spaces live after it are those live before. -/
theorem adapt_body_next_frees (p : Params) (lib : Lib M S V U) (s : State M S V U)
    (hlive : (s.ts, s.as) ∉ s.live) (hf : (adapt_body p lib s).1 = Flow.next) :
    (adapt_body p lib s).2.live = s.live := by
  have herase : (s.live ++ [(s.ts, s.as)]).erase (s.ts, s.as) = s.live := by
    rw [List.erase_append_right _ hlive]
    simp
  by_cases hn : (ref_newton p lib s).2 = true
  · by_cases he : err_est_rel_total p lib s < p.ERR_STOP
    · rw [adapt_body_below p lib s hn he]
      simpa [free_ref] using herase
    · by_cases hd : p.NDOF_STOP ≤ ndof_after_adapt p lib s
      · rw [adapt_body_break p lib s hn he hd] at hf
        cases hf
      · rw [adapt_body_refine p lib s hn he hd]
        simpa [free_ref] using herase
  · have hn2 : (ref_newton p lib s).2 = false := by simpa using hn
    rw [adapt_body_abort_eq p lib s hn2] at hf
    cases hf

/-! ## C11: the coarse solution at the end of an adaptivity loop -/

/-- Modelled from the spec: "Solution: a coefficient vector bound to exactly one
DiscreteSpace; length equals that space's DOF count".  The library `lib` with
every solution paired with the mesh and space it was bound to by the routine
that produced it (`Solution::set_coeff_vector` and the `project_global` with a
target solution), and with `none` for a solution bound to no space; every
routine computes what it computes in `lib`. -/
def track_binding (lib : Lib M S V U) : Lib M S V (U × Option (M × S)) where
  load := lib.load
  refine_all_elements := lib.refine_all_elements
  H1Space := lib.H1Space
  get_num_dofs := lib.get_num_dofs
  Solution_init := fun m => (lib.Solution_init m, none)
  Solution_empty := (lib.Solution_empty, none)
  AVector := lib.AVector
  project_global := fun m sp u v => lib.project_global m sp u.1 v
  project_global_sln := fun m sp u => (lib.project_global_sln m sp u.1, some (m, sp))
  solve_newton := fun m sp td u v tol mi => lib.solve_newton m sp td u.1 v tol mi
  set_coeff_vector := fun m sp v => (lib.set_coeff_vector m sp v, some (m, sp))
  set_uniform_order := lib.set_uniform_order
  dup := lib.dup
  copy_orders := lib.copy_orders
  calc_elem_errors := fun m sp u r => lib.calc_elem_errors m sp u.1 r.1
  adapt := fun m sp u r t st mr => lib.adapt m sp u.1 r.1 t st mr

/-- The coarse solution is bound to the current coarse mesh and space. -/
def sln_bound (s : State M S V (U × Option (M × S))) : Prop :=
  s.sln.2 = some (s.mesh, s.space)

/-- The length of the coarse solution: the DOF count of the space it is bound to. -/
def sln_length (lib : Lib M S V U) (s : State M S V (U × Option (M × S))) : Option Int :=
  s.sln.2.map (fun b => lib.get_num_dofs b.1 b.2)

/-- The state with the bindings of the solutions dropped. -/
def forget_binding (s : State M S V (U × Option (M × S))) : State M S V U where
  basemesh := s.basemesh
  mesh := s.mesh
  space := s.space
  coeff_vec := s.coeff_vec
  sln_prev_time := s.sln_prev_time.1
  sln := s.sln.1
  ref_sln := s.ref_sln.1
  ts := s.ts
  as := s.as
  done := s.done
  live := s.live
  trace := s.trace

/-- The result with the bindings of the solutions dropped. -/
def forget_result : Result (State M S V (U × Option (M × S))) → Result (State M S V U)
  | Result.finished s => Result.finished (forget_binding s)
  | Result.aborted s msg => Result.aborted (forget_binding s) msg
  | Result.out_of_fuel s => Result.out_of_fuel (forget_binding s)

theorem adapt_body_tracked (p : Params) (lib : Lib M S V U)
    (s : State M S V (U × Option (M × S))) :
    adapt_body p lib (forget_binding s) =
      ((adapt_body p (track_binding lib) s).1,
        forget_binding (adapt_body p (track_binding lib) s).2) := by
  have h1 : ref_newton p (track_binding lib) s = ref_newton p lib (forget_binding s) := rfl
  have h2 : err_est_rel_total p (track_binding lib) s
      = err_est_rel_total p lib (forget_binding s) := rfl
  have h3 : ndof_after_adapt p (track_binding lib) s
      = ndof_after_adapt p lib (forget_binding s) := rfl
  by_cases hn : (ref_newton p lib (forget_binding s)).2 = true
  · by_cases he : err_est_rel_total p lib (forget_binding s) < p.ERR_STOP
    · rw [adapt_body_below p lib _ hn he,
        adapt_body_below p (track_binding lib) s (h1 ▸ hn) (h2 ▸ he)]
      rfl
    · by_cases hd : p.NDOF_STOP ≤ ndof_after_adapt p lib (forget_binding s)
      · rw [adapt_body_break p lib _ hn he hd,
          adapt_body_break p (track_binding lib) s (h1 ▸ hn) (h2 ▸ he) (h3 ▸ hd)]
        rfl
      · rw [adapt_body_refine p lib _ hn he hd,
          adapt_body_refine p (track_binding lib) s (h1 ▸ hn) (h2 ▸ he) (h3 ▸ hd)]
        rfl
  · have hn2 : (ref_newton p lib (forget_binding s)).2 = false := by simpa using hn
    rw [adapt_body_abort_eq p lib _ hn2,
      adapt_body_abort_eq p (track_binding lib) s (h1 ▸ hn2)]
    rfl

/-- Tracking the bindings changes nothing else: the adaptivity loop over
`track_binding lib` is the adaptivity loop over `lib`. -/
theorem adapt_loop_tracked (p : Params) (lib : Lib M S V U) (fuel : Nat) :
    ∀ s : State M S V (U × Option (M × S)),
      adapt_loop p lib fuel (forget_binding s)
        = forget_result (adapt_loop p (track_binding lib) fuel s) := by
  induction fuel with
  | zero => exact fun s => rfl
  | succ fuel ih =>
    intro s
    have h := adapt_body_tracked p lib s
    rcases hb : adapt_body p (track_binding lib) s with ⟨f, s1⟩
    rw [hb] at h
    simp only at h
    cases f with
    | abort msg => simp [adapt_loop, hb, h, forget_result]
    | brk => simp [adapt_loop, hb, h, forget_result]
    | next =>
      have hd : (forget_binding s1).done = s1.done := rfl
      by_cases hdone : s1.done = false
      · simp only [adapt_loop, hb, h, hd, hdone, if_true]
        exact ih s1
      · simp [adapt_loop, hb, h, hd, hdone, forget_result]

/-- On the ways an iteration ends by running to the end of the body (continuing,
error below `ERR_STOP`, `hp.adapt` returning `true`) a coarse solution bound to
the coarse space at the start of the iteration is bound to it at the end: either
nothing was refined, or line 258 has projected the reference solution on the
refined space. -/
theorem adapt_body_keeps_binding (p : Params) (lib : Lib M S V U)
    (s : State M S V (U × Option (M × S))) (hb : sln_bound s)
    (hf : (adapt_body p (track_binding lib) s).1 = Flow.next) :
    sln_bound (adapt_body p (track_binding lib) s).2 := by
  by_cases hn : (ref_newton p (track_binding lib) s).2 = true
  · by_cases he : err_est_rel_total p (track_binding lib) s < p.ERR_STOP
    · rw [adapt_body_below p _ s hn he]
      exact hb
    · by_cases hd : p.NDOF_STOP ≤ ndof_after_adapt p (track_binding lib) s
      · rw [adapt_body_break p _ s hn he hd] at hf
        cases hf
      · rw [adapt_body_refine p _ s hn he hd]
        rfl
  · have hn2 : (ref_newton p (track_binding lib) s).2 = false := by simpa using hn
    rw [adapt_body_abort_eq p _ s hn2] at hf
    cases hf

/-- On the `break` of line 253 the coarse solution is left as it was while the
coarse mesh and space are those returned by `hp.adapt`. -/
theorem adapt_body_break_binding (p : Params) (lib : Lib M S V U)
    (s : State M S V (U × Option (M × S)))
    (hf : (adapt_body p (track_binding lib) s).1 = Flow.brk) :
    (adapt_body p (track_binding lib) s).2.sln = s.sln ∧
    (adapt_body p (track_binding lib) s).2.mesh = (adapt_result p (track_binding lib) s).1 ∧
    (adapt_body p (track_binding lib) s).2.space
      = (adapt_result p (track_binding lib) s).2.1 := by
  by_cases hn : (ref_newton p (track_binding lib) s).2 = true
  · by_cases he : err_est_rel_total p (track_binding lib) s < p.ERR_STOP
    · rw [adapt_body_below p _ s hn he] at hf
      cases hf
    · by_cases hd : p.NDOF_STOP ≤ ndof_after_adapt p (track_binding lib) s
      · rw [adapt_body_break p _ s hn he hd]
        exact ⟨rfl, rfl, rfl⟩
      · rw [adapt_body_refine p _ s hn he hd] at hf
        cases hf
  · have hn2 : (ref_newton p (track_binding lib) s).2 = false := by simpa using hn
    rw [adapt_body_abort_eq p _ s hn2] at hf
    cases hf

/-- An adaptivity loop entered with the coarse solution bound to the coarse space
and left normally ends with the coarse solution bound to the coarse space,
unless it is left by the `break` of line 253. -/
theorem adapt_loop_binding (p : Params) (lib : Lib M S V U) (fuel : Nat) :
    ∀ s s1 : State M S V (U × Option (M × S)), sln_bound s →
      adapt_loop p (track_binding lib) fuel s = Result.finished s1 →
      sln_bound s1 ∨
        ∃ s2, sln_bound s2 ∧ adapt_body p (track_binding lib) s2 = (Flow.brk, s1) := by
  induction fuel with
  | zero =>
    intro s s1 _ h
    simp [adapt_loop] at h
  | succ fuel ih =>
    intro s s1 hb h
    have hk := adapt_body_keeps_binding p lib s hb
    rcases hbody : adapt_body p (track_binding lib) s with ⟨f, s2⟩
    rw [hbody] at hk
    cases f with
    | abort msg => simp [adapt_loop, hbody] at h
    | brk =>
      simp only [adapt_loop, hbody, Result.finished.injEq] at h
      subst h
      exact Or.inr ⟨s, hb, hbody⟩
    | next =>
      by_cases hd : s2.done = false
      · simp only [adapt_loop, hbody, hd, if_true] at h
        exact ih s2 s1 (hk rfl) h
      · simp [adapt_loop, hbody, hd] at h
        subst h
        exact Or.inl (hk rfl)

/-- C11 fails on the `break` of line 253.  In the run with the source parameters
over `lib_big_refinement`, the adaptivity loop of time step 1 is entered with
the coarse solution bound to the coarse space (mesh 2, 200 DOFs); in its first
iteration the error is 1000 percent and `hp.adapt` refines the coarse space in
place (mesh 3, 60200 DOFs); the loop is left with `done = true` and the coarse
solution unchanged, still bound to the space of 200 DOFs: the projection of line
258 has not been executed. -/
theorem C11_break_skips_projection :
    ∃ s0 s1, run source_params (track_binding lib_big_refinement) 1 0 = Result.finished s0 ∧
      sln_bound (loop_entry s0) ∧
      adapt_loop source_params (track_binding lib_big_refinement) 1 (loop_entry s0)
        = Result.finished s1 ∧
      s1.done = true ∧ ¬ sln_bound s1 ∧ s1.sln = s0.sln ∧
      s1.sln.2 = some (2, (200, false)) ∧ s1.mesh = 3 ∧ s1.space = (60200, false) ∧
      sln_length lib_big_refinement s1 = some 200 ∧
      lib_big_refinement.get_num_dofs s1.mesh s1.space = 60200 ∧
      Event.adapt false 60200 ∈ s1.trace ∧ Event.project_coarse_sln ∉ s1.trace := by
  refine ⟨(run source_params (track_binding lib_big_refinement) 1 0).state,
    (adapt_loop source_params (track_binding lib_big_refinement) 1
      (loop_entry (run source_params (track_binding lib_big_refinement) 1 0).state)).state,
    ?_, ?_, ?_, ?_, ?_, ?_, ?_, ?_, ?_, ?_, ?_, ?_, ?_⟩
  all_goals norm_num [run, init, time_loop, loop_entry, adapt_loop, adapt_body, ref_newton,
    ref_init_vec, ref_mesh, ref_space, new_ref_sln, err_est_rel_total, adapt_result,
    ndof_after_adapt, free_ref, State.log, Result.state, sln_bound, sln_length,
    track_binding, lib_big_refinement, test_lib, source_params, ERR_STOP, NDOF_STOP,
    INIT_REF_NUM]
  · decide
  · decide
  · simp

end GPAdapt
